import Mathlib

/-!
Verification of the request-validation and business-rule pipeline of the
financial-manager backend (Express + express-validator + Mongoose).

The middleware layer is shallowly embedded: each middleware of
src/backend/src/middleware and each express-validator chain of the income and
expense POST routes becomes a Lean function on an explicit request context.
Platform functions used by the source (String.prototype.trim, toLowerCase,
validator.js escape and stripLow, parseFloat, Number and Date parsing and
printing) are modelled by executable Lean functions below; the modelled subset
is exactly what the routes exercise on JSON request payloads:

  - numbers are carried as their shortest decimal form (structure DecNum).
    Every numeric literal reaching this pipeline has at most 15 significant
    digits, and for such inputs parseFloat followed by Number.prototype.toString
    round-trips to the decimal form with trailing fractional zeros removed,
    which is what jsParseFloat produces directly;
  - dates are carried as integer milliseconds since the Unix epoch, with the
    server assumed to run in the UTC timezone (calendar conversion follows the
    standard civil-from-days algorithm, matching ECMAScript Date for the
    modelled YYYY-MM-DD and full ISO forms);
  - rational comparisons are performed on scaled integers, never on floats.
    All quantities compared by the pipeline (amounts against bounds, stored
    amounts against drafts) are short decimals for which IEEE double
    comparison agrees with exact decimal comparison.
-/

namespace FinApp

/-- Whitespace recognised by the JavaScript trim and the regex class \s
(ASCII part; the routes never receive the exotic Unicode space characters). -/
def isJsSpace (ch : Char) : Bool :=
  ch == ' ' || ch == '\t' || ch == '\n' || ch == '\r' ||
  ch.toNat == 11 || ch.toNat == 12

/-- Model of String.prototype.trim on the character list. -/
def jsTrimList (l : List Char) : List Char :=
  ((l.dropWhile isJsSpace).reverse.dropWhile isJsSpace).reverse

/-- Model of String.prototype.trim. -/
def jsTrim (s : String) : String := ⟨jsTrimList s.data⟩

/-- Model of String.prototype.toLowerCase on one character (ASCII range; tag
and pattern strings in this pipeline are ASCII or Spanish letters, and the
source only relies on ASCII case folding). -/
def jsLowerChar (ch : Char) : Char :=
  if 65 ≤ ch.toNat ∧ ch.toNat ≤ 90 then Char.ofNat (ch.toNat + 32) else ch

/-- Model of String.prototype.toLowerCase. -/
def jsLower (s : String) : String := ⟨s.data.map jsLowerChar⟩

/-- Characters replaced by validator.js escape, with their replacement. The
source applies eight sequential global replacements, ampersand first; since no
replacement string contains a later-replaced character, one full application
equals this character-wise map. -/
def escMap (ch : Char) : List Char :=
  if ch == '&' then "&amp;".data
  else if ch.toNat == 34 then "&quot;".data
  else if ch.toNat == 39 then "&#x27;".data
  else if ch == '<' then "&lt;".data
  else if ch == '>' then "&gt;".data
  else if ch == '/' then "&#x2F;".data
  else if ch.toNat == 92 then "&#x5C;".data
  else if ch.toNat == 96 then "&#96;".data
  else [ch]

/-- Model of validator.js escape, used by the .escape() sanitizer. -/
def jsEscape (s : String) : String := ⟨(s.data.map escMap).flatten⟩

/-- Characters removed by validator.js stripLow with keep_new_lines set:
control characters except newline and carriage return. -/
def isStrippedLow (ch : Char) : Bool :=
  (ch.toNat ≤ 31 && ch.toNat != 10 && ch.toNat != 13) || ch.toNat == 127

/-- Model of the .stripLow(true) sanitizer. -/
def jsStripLowKeepNl (s : String) : String :=
  ⟨s.data.filter (fun ch => !(isStrippedLow ch))⟩

/-- Substring occurrence on character lists. -/
def listHasInfix (n : List Char) : List Char → Bool
  | [] => n.isEmpty
  | c :: t => n.isPrefixOf (c :: t) || listHasInfix n t

/-- Model of String.prototype.includes. -/
def strHasSub (n s : String) : Bool := listHasInfix n.data s.data

/-- Decimal digit test. -/
def isDigitCh (ch : Char) : Bool := 48 ≤ ch.toNat && ch.toNat ≤ 57

/-- Numeric value of a digit character. -/
def digitVal (ch : Char) : Nat := ch.toNat - 48

/-- Consume a maximal run of decimal digits. -/
def takeDigits : List Char → List Nat × List Char
  | [] => ([], [])
  | c :: t =>
    if isDigitCh c then
      let p := takeDigits t
      (digitVal c :: p.1, p.2)
    else ([], c :: t)

/-- Natural number denoted by a digit list (most significant first). -/
def natOfDigits (ds : List Nat) : Nat := ds.foldl (fun a d => a * 10 + d) 0

/-- Shortest decimal form of a JavaScript number: sign, integer part and the
fractional digits without trailing zeros. This is the form produced by
Number.prototype.toString for every number this pipeline handles. -/
structure DecNum where
  neg : Bool
  intPart : Nat
  frac : List Nat
deriving DecidableEq, Repr

/-- Scaled-integer value: num / 10 ^ den10. Comparisons cross-multiply, so the
kernel only ever reduces integer arithmetic. -/
structure QVal where
  num : Int
  den10 : Nat
deriving DecidableEq, Repr

/-- Exact value of a decimal as a scaled integer. -/
def DecNum.toQ (d : DecNum) : QVal :=
  ⟨(if d.neg then -1 else 1) * (d.intPart * 10 ^ d.frac.length + natOfDigits d.frac),
   d.frac.length⟩

/-- Less-or-equal on scaled integers. -/
def qLe (a b : QVal) : Bool := a.num * 10 ^ b.den10 ≤ b.num * 10 ^ a.den10

/-- Strict order on scaled integers. -/
def qLt (a b : QVal) : Bool := a.num * 10 ^ b.den10 < b.num * 10 ^ a.den10

/-- Value equality on scaled integers. -/
def qEq (a b : QVal) : Bool := a.num * 10 ^ b.den10 == b.num * 10 ^ a.den10

/-- Drop trailing zero digits of a fractional part. -/
def stripTrailingZeros (ds : List Nat) : List Nat :=
  (ds.reverse.dropWhile (· == 0)).reverse

/-- Model of parseFloat on the decimal shapes the routes receive: optional
minus sign, digits, optional dot and digits; trailing characters are ignored
as parseFloat does, and a string with no leading numeric prefix gives none
(NaN). The result is stored in shortest form, which is how the resulting
double prints. -/
def jsParseFloat (s : String) : Option DecNum :=
  let p0 : Bool × List Char :=
    match s.data with
    | c :: t => if c == '-' then (true, t) else (false, s.data)
    | [] => (false, [])
  let ip := takeDigits p0.2
  match ip.2 with
  | c :: t =>
    if c == '.' then
      let fp := takeDigits t
      if ip.1.isEmpty && fp.1.isEmpty then none
      else some ⟨p0.1, natOfDigits ip.1, stripTrailingZeros fp.1⟩
    else if ip.1.isEmpty then none
    else some ⟨p0.1, natOfDigits ip.1, []⟩
  | [] => if ip.1.isEmpty then none else some ⟨p0.1, natOfDigits ip.1, []⟩

/-- Digit list rendered as characters. -/
def digitsStr (ds : List Nat) : String := ⟨ds.map (fun d => Char.ofNat (48 + d))⟩

/-- Decimal digits of a natural number, most significant first (fuel-based so
that it reduces in the kernel; the fuel n + 1 always suffices). -/
def natDigitsCore : Nat → Nat → List Nat
  | 0, _ => []
  | fuel + 1, n => if n < 10 then [n] else natDigitsCore fuel (n / 10) ++ [n % 10]

/-- Decimal digits of a natural number. -/
def natDigits (n : Nat) : List Nat := natDigitsCore (n + 1) n

/-- Model of Number.prototype.toString on shortest decimal forms. -/
def decStr (d : DecNum) : String :=
  (if d.neg then "-" else "") ++ digitsStr (natDigits d.intPart) ++
  (if d.frac.isEmpty then "" else "." ++ digitsStr d.frac)

/-- Model of the Number conversion applied by JavaScript relational operators
to a whole string: unlike parseFloat, trailing garbage yields NaN (none), and
a whitespace-only string yields 0. -/
def jsStrictNum (s : String) : Option DecNum :=
  let t := jsTrim s
  if t.isEmpty then some ⟨false, 0, []⟩
  else
    let p0 : Bool × List Char :=
      match t.data with
      | c :: l => if c == '-' then (true, l) else (false, t.data)
      | [] => (false, [])
    let ip := takeDigits p0.2
    match ip.2 with
    | [] => if ip.1.isEmpty then none else some ⟨p0.1, natOfDigits ip.1, []⟩
    | c :: l =>
      if c == '.' then
        let fp := takeDigits l
        if fp.2.isEmpty && !(ip.1.isEmpty && fp.1.isEmpty) then
          some ⟨p0.1, natOfDigits ip.1, stripTrailingZeros fp.1⟩
        else none
      else none

/-- Days since the Unix epoch of a civil date (standard civil-from-days
construction; matches ECMAScript Date for UTC). -/
def daysFromCivil (y m d : Int) : Int :=
  let y2 := if m ≤ 2 then y - 1 else y
  let era := (if 0 ≤ y2 then y2 else y2 - 399) / 400
  let yoe := y2 - era * 400
  let mth := if 2 < m then m - 3 else m + 9
  let doy := (153 * mth + 2) / 5 + d - 1
  let doe := yoe * 365 + yoe / 4 - yoe / 100 + doy
  era * 146097 + doe - 719468

/-- Civil date (year, month, day) of a days-since-epoch count. -/
def civilFromDays (z0 : Int) : Int × Int × Int :=
  let z := z0 + 719468
  let era := (if 0 ≤ z then z else z - 146096) / 146097
  let doe := z - era * 146097
  let yoe := (doe - doe / 1460 + doe / 36524 - doe / 146096) / 365
  let y := yoe + era * 400
  let doy := doe - (365 * yoe + yoe / 4 - yoe / 100)
  let mp := (5 * doy + 2) / 153
  let d := doy - (153 * mp + 2) / 5 + 1
  let m := if mp < 10 then mp + 3 else mp - 9
  (if m ≤ 2 then y + 1 else y, m, d)

/-- Milliseconds per day. -/
def msPerDay : Int := 86400000

/-- Parse exactly n decimal digits. -/
def getDigits2 : List Char → Option (Nat × List Char)
  | a :: b :: t =>
    if isDigitCh a && isDigitCh b then some (digitVal a * 10 + digitVal b, t)
    else none
  | _ => none

/-- Parse exactly three decimal digits. -/
def getDigits3 : List Char → Option (Nat × List Char)
  | a :: b :: c :: t =>
    if isDigitCh a && isDigitCh b && isDigitCh c then
      some ((digitVal a * 10 + digitVal b) * 10 + digitVal c, t)
    else none
  | _ => none

/-- Parse exactly four decimal digits. -/
def getDigits4 : List Char → Option (Nat × List Char)
  | a :: b :: c :: d :: t =>
    if isDigitCh a && isDigitCh b && isDigitCh c && isDigitCh d then
      some (((digitVal a * 10 + digitVal b) * 10 + digitVal c) * 10 + digitVal d, t)
    else none
  | _ => none

/-- Expect one given character. -/
def expectCh (ch : Char) : List Char → Option (List Char)
  | c :: t => if c == ch then some t else none
  | [] => none

/-- Model of new Date(string) / Date.parse restricted to the two shapes the
pipeline produces and consumes: YYYY-MM-DD (UTC midnight) and the full
toISOString form YYYY-MM-DDTHH:MM:SS.mmmZ. Everything else is an invalid date
(none). -/
def jsParseDateMs (s : String) : Option Int := do
  let (y, r1) ← getDigits4 s.data
  let r2 ← expectCh '-' r1
  let (mo, r3) ← getDigits2 r2
  let r4 ← expectCh '-' r3
  let (dy, r5) ← getDigits2 r4
  if !(1 ≤ mo && mo ≤ 12 && 1 ≤ dy && dy ≤ 31) then none
  else
    let base := daysFromCivil (Int.ofNat y) (Int.ofNat mo) (Int.ofNat dy) * msPerDay
    match r5 with
    | [] => some base
    | 'T' :: r6 => do
      let (hh, r7) ← getDigits2 r6
      let r8 ← expectCh ':' r7
      let (mi, r9) ← getDigits2 r8
      let r10 ← expectCh ':' r9
      let (ss, r11) ← getDigits2 r10
      let r12 ← expectCh '.' r11
      let (ms, r13) ← getDigits3 r12
      match r13 with
      | ['Z'] =>
        if hh ≤ 23 && mi ≤ 59 && ss ≤ 59 then
          some (base + (((hh * 60 + mi) * 60 + ss) * 1000 + ms : Nat))
        else none
      | _ => none
    | _ => none

/-- Left-pad a number with zeros to a given width. -/
def padNum (w n : Nat) : String :=
  let s := toString n
  ⟨List.replicate (w - s.length) '0'⟩ ++ s

/-- Model of Date.prototype.toISOString for timestamps in the modelled era
(years 0 to 9999). -/
def isoOfMs (t : Int) : String :=
  let day := Int.fdiv t msPerDay
  let msod := (t - day * msPerDay).toNat
  let c := civilFromDays day
  padNum 4 c.1.toNat ++ "-" ++ padNum 2 c.2.1.toNat ++ "-" ++ padNum 2 c.2.2.toNat ++
  "T" ++ padNum 2 (msod / 3600000) ++ ":" ++ padNum 2 (msod / 60000 % 60) ++
  ":" ++ padNum 2 (msod / 1000 % 60) ++ "." ++ padNum 3 (msod % 1000) ++ "Z"

/-- JSON-like value of a request field. Request bodies of the transaction
routes are flat JSON objects whose values are strings, numbers, booleans,
arrays or null; nested objects do not occur in the modelled payload space. -/
inductive JVal where
  | jstr : String → JVal
  | jnum : DecNum → JVal
  | jbool : Bool → JVal
  | jarr : List JVal → JVal
  | jnull : JVal
deriving Repr

/-- A JavaScript object as an association list with distinct keys, in insertion
order (req.body and req.query). -/
abbrev Fields := List (String × JVal)

/-- Property read: obj[k], none meaning undefined. -/
def getF (b : Fields) (k : String) : Option JVal :=
  (b.find? (fun p => p.1 == k)).map (·.2)

/-- Property write: obj[k] = v, replacing in place or appending. -/
def setF (b : Fields) (k : String) (v : JVal) : Fields :=
  if (b.find? (fun p => p.1 == k)).isSome then
    b.map (fun p => if p.1 == k then (k, v) else p)
  else b ++ [(k, v)]

/-- Model of the toString coercion express-validator applies before calling a
validator.js string validator: undefined and null become the empty string, an
array is represented by its first element, other primitives print canonically. -/
def jsToStr : JVal → String
  | .jstr s => s
  | .jnum d => decStr d
  | .jbool b => if b then "true" else "false"
  | .jarr [] => ""
  | .jarr (x :: _) => jsToStr x
  | .jnull => ""

mutual

/-- Model of value.toString() as called directly by the source custom
validator on amount: arrays join with commas; null and undefined would throw,
handled at the call site. -/
def jsDotToString : JVal → String
  | .jarr l => String.intercalate "," (jsDotToStringList l)
  | .jstr s => s
  | .jnum d => decStr d
  | .jbool b => if b then "true" else "false"
  | .jnull => ""

def jsDotToStringList : List JVal → List String
  | [] => []
  | v :: t => jsDotToString v :: jsDotToStringList t

end

/-- String form of a possibly absent field, as express-validator presents it
to string validators. -/
def fieldS (b : Fields) (k : String) : String :=
  match getF b k with
  | some v => jsToStr v
  | none => ""

/-- JavaScript truthiness of a possibly absent value. -/
def jsTruthy : Option JVal → Bool
  | some (.jstr s) => !s.isEmpty
  | some (.jnum d) => !(qEq d.toQ ⟨0, 0⟩)
  | some (.jbool b) => b
  | some (.jarr _) => true
  | some .jnull => false
  | none => false

/-- Model of the implicit Number conversion JavaScript applies to operands of
relational operators: none is NaN. Undefined converts to NaN, null and the
empty string to 0; arrays are not compared by this pipeline. -/
def jsNumberOf : Option JVal → Option DecNum
  | some (.jnum d) => some d
  | some (.jbool b) => some ⟨false, if b then 1 else 0, []⟩
  | some .jnull => some ⟨false, 0, []⟩
  | some (.jstr s) => jsStrictNum s
  | some (.jarr _) => none
  | none => none

/-- Length test value.length > n as JavaScript evaluates it: defined for
strings and arrays, false otherwise (undefined > n is false). -/
def jsLenGt (v : Option JVal) (n : Nat) : Bool :=
  match v with
  | some (.jarr l) => n < l.length
  | some (.jstr s) => n < s.length
  | _ => false

/-- User document as defined by userSchema: name, email, password, role,
isActive, lastLogin, preferences and timestamps. Only the fields the pipeline
reads are carried. The schema defines no plan path, so a user document has no
plan attribute. -/
structure User where
  id : Nat
  isActive : Bool
  lastLogin : Option Int
deriving DecidableEq, Repr

/-- Transaction document (Income and Expense share every field the pipeline
inspects: user, amount, category, date, isActive; description and
paymentMethod are carried for the persisted record). -/
structure Txn where
  user : Nat
  description : String
  amount : DecNum
  category : String
  date : Int
  paymentMethod : String
  isActive : Bool
deriving DecidableEq, Repr

/-- The document store (external collaborator): user, income and expense
collections. -/
structure Store where
  users : List User
  incomes : List Txn
  expenses : List Txn

/-- One formatted validation error, as built by handleValidationErrors from
validationResult. -/
structure VErr where
  field : String
  msg : String
deriving DecidableEq, Repr

/-- An HTTP response of the pipeline: status, the error or success message,
and the aggregated validation errors when the response carries them. -/
structure Resp where
  status : Nat
  message : String
  verrs : List VErr
deriving DecidableEq, Repr

/-- The in-flight request context threaded through the middleware chain:
payload, transport metadata, the mount-relative path Express presents inside
the router, the authenticated principal, the store, the express-validator
error accumulator and the current time. -/
structure Ctx where
  body : Fields
  query : Fields
  contentType : Option String
  contentLength : Nat
  reqPath : String
  userId : Nat
  store : Store
  errors : List VErr
  nowMs : Int

/-- Outcome of one middleware: pass control on (possibly with a transformed
context) or terminate the request with a response. -/
inductive Step where
  | next : Ctx → Step
  | respond : Resp → Step

/-- True when the middleware passed control on. -/
def Step.isNext : Step → Bool
  | .next _ => true
  | .respond _ => false

/-- The context a passing step carries, with a default for the respond case. -/
def Step.ctxD (s : Step) (d : Ctx) : Ctx :=
  match s with
  | .next c => c
  | .respond _ => d

/-- Append one validation error to the accumulator. -/
def addErr (c : Ctx) (f m : String) : Ctx :=
  { c with errors := c.errors ++ [⟨f, m⟩] }

/-!
Middleware of src/backend/src/middleware/sanitization.mjs.
-/

/-- Query-parameter loop of sanitizeInput. The source reads
req.body[key].trim() inside the query loop, so a string-valued query key whose
body counterpart is absent or not a string makes the middleware throw a
TypeError; none models that crash. For a string body counterpart the query
value is overwritten with the trimmed body value, as the source does. -/
def sanQueryFields (body : Fields) : Fields → Option Fields
  | [] => some []
  | (k, .jstr _) :: t =>
    match getF body k with
    | some (.jstr bs) => (sanQueryFields body t).map ((k, JVal.jstr (jsTrim bs)) :: ·)
    | _ => none
  | (k, v) :: t => (sanQueryFields body t).map ((k, v) :: ·)

/-- sanitizeInput: trims every top-level string of the body, then walks the
query parameters. A thrown TypeError is surfaced by the outer errorHandler as
a 500 response (message text elided), terminating the request. -/
def sanitizeInput (c : Ctx) : Step :=
  let body2 := c.body.map (fun p =>
    match p.2 with
    | .jstr s => (p.1, JVal.jstr (jsTrim s))
    | _ => p)
  match sanQueryFields body2 c.query with
  | some q2 => .next { c with body := body2, query := q2 }
  | none => .respond ⟨500, "TypeError", []⟩

/-- Shared worker for the description and notes sanitizer chains:
trim, escape, stripLow(true), persisted back to the field. A present
non-string value is coerced to its string form first, as express-validator
does before a standard sanitizer; an absent field is left absent. -/
def sanitizeTextField (k : String) (c : Ctx) : Ctx :=
  match getF c.body k with
  | some v =>
    { c with body := setF c.body k (.jstr (jsStripLowKeepNl (jsEscape (jsTrim (jsToStr v))))) }
  | none => c

/-- sanitizeDescription chain. -/
def sanitizeDescription (c : Ctx) : Ctx := sanitizeTextField "description" c

/-- sanitizeNotes chain (optional field; absent is left absent either way). -/
def sanitizeNotes (c : Ctx) : Ctx := sanitizeTextField "notes" c

/-- Element filter of the sanitizeTags customSanitizer: tag.length > 0, which
drops empty strings and, because only strings and arrays have a length, every
non-string non-array element. -/
def tagKept : JVal → Bool
  | .jstr s => !s.isEmpty
  | .jarr l => !l.isEmpty
  | _ => false

/-- sanitizeTags: on an array value, lower-case and trim the string elements,
then drop elements without positive length; other values pass unchanged. -/
def sanitizeTags (c : Ctx) : Ctx :=
  match getF c.body "tags" with
  | some (.jarr l) =>
    let mapped := l.map (fun t =>
      match t with
      | .jstr s => JVal.jstr (jsLower (jsTrim s))
      | x => x)
    { c with body := setF c.body "tags" (.jarr (mapped.filter tagKept)) }
  | _ => c

/-- sanitizeDate: a truthy date value is parsed with new Date; on success the
field becomes the toISOString form, on failure the original value is kept. A
numeric value is the millisecond timestamp (modelled for integral
non-negative numbers, the only numeric dates in scope). -/
def sanitizeDate (c : Ctx) : Ctx :=
  match getF c.body "date" with
  | some (.jstr s) =>
    if s.isEmpty then c
    else
      match jsParseDateMs s with
      | some t => { c with body := setF c.body "date" (.jstr (isoOfMs t)) }
      | none => c
  | some (.jnum d) =>
    if d.frac.isEmpty && !d.neg then
      { c with body := setF c.body "date" (.jstr (isoOfMs d.intPart)) }
    else c
  | _ => c

/-- sanitizeNumericFields(fields) instantiated at amount, the only use on the
transaction routes: a string value is replaced by its parseFloat image. An
unparseable string gives NaN in the source; on every later read NaN and the
unparseable string behave identically in this pipeline (both fail isFloat,
both compare false, both cast to an invalid Mongoose number), so the model
keeps the string. -/
def sanitizeNumericFieldsAmount (c : Ctx) : Ctx :=
  match getF c.body "amount" with
  | some (.jstr s) =>
    match jsParseFloat s with
    | some d => { c with body := setF c.body "amount" (.jnum d) }
    | none => c
  | _ => c

/-- sanitizeBooleanFields(fields) instantiated at isRecurring: a string
becomes the comparison with the lower-cased literal true, anything else goes
through Boolean(), i.e. truthiness. The customSanitizer runs even when the
field is absent, creating isRecurring = false. -/
def sanitizeBooleanFieldsIsRecurring (c : Ctx) : Ctx :=
  let v := getF c.body "isRecurring"
  let r := match v with
    | some (.jstr s) => jsLower s == "true"
    | other => jsTruthy other
  { c with body := setF c.body "isRecurring" (.jbool r) }

/-- Deny-list matcher of preventInjection, on the lower-cased string (the
source patterns carry the i flag). The regular expressions are modelled by
their substring skeletons: a script, iframe, object or embed element needs its
opening and closing tag, a javascript: URI is a plain substring, and an inline
handler attribute is the shape on-wordchars-spaces-equals. -/
def spacesEq : List Char → Bool
  | '=' :: _ => true
  | c :: t => if isJsSpace c then spacesEq t else false
  | [] => false

/-- After the first word character of a candidate handler attribute: consume
word characters, then optional spaces, then an equals sign. -/
def afterWord : List Char → Bool
  | [] => false
  | c :: t =>
    if c.isAlphanum || c == '_' then afterWord t
    else spacesEq (c :: t)

/-- Scan for the on-attribute shape anywhere in the list. -/
def hasOnAttr : List Char → Bool
  | [] => false
  | c :: t =>
    (c == 'o' && (match t with
      | c2 :: t2 => c2 == 'n' && (match t2 with
        | c3 :: t3 => (c3.isAlphanum || c3 == '_') && afterWord t3
        | [] => false)
      | [] => false)) || hasOnAttr t

/-- One string against the deny-list. -/
def dangerousStr (s0 : String) : Bool :=
  let s := jsLower s0
  (strHasSub "<script" s && strHasSub "</script>" s) ||
  strHasSub "javascript:" s ||
  hasOnAttr s.data ||
  (strHasSub "<iframe" s && strHasSub "</iframe>" s) ||
  (strHasSub "<object" s && strHasSub "</object>" s) ||
  (strHasSub "<embed" s && strHasSub "</embed>" s)

mutual

/-- Recursive scan of checkForInjection over one value. -/
def JVal.hasDanger : JVal → Bool
  | .jstr s => dangerousStr s
  | .jarr l => hasDangerList l
  | _ => false

/-- Recursive scan of checkForInjection over array elements. -/
def hasDangerList : List JVal → Bool
  | [] => false
  | v :: t => v.hasDanger || hasDangerList t

end

/-- preventInjection: scan body and query; on any match respond 400 with the
generic message, otherwise pass through unchanged. -/
def preventInjection (c : Ctx) : Step :=
  if hasDangerList (c.body.map (·.2)) || hasDangerList (c.query.map (·.2)) then
    .respond ⟨400, "Contenido potencialmente peligroso detectado", []⟩
  else .next c

/-- limitDataSize(maxSize): reject oversized payloads with 413. -/
def limitDataSize (maxSize : Nat) (c : Ctx) : Step :=
  if maxSize < c.contentLength then
    .respond ⟨413, "Datos demasiado grandes", []⟩
  else .next c

/-- validateContentType(allowedTypes) for the mutating methods: the header
must be present and contain one of the allowed types, else 415. -/
def validateContentType (allowed : List String) (c : Ctx) : Step :=
  match c.contentType with
  | some ct =>
    if allowed.any (fun t => strHasSub t ct) then .next c
    else .respond ⟨415, "Tipo de contenido no soportado", []⟩
  | none => .respond ⟨415, "Tipo de contenido no soportado", []⟩

/-!
Validation chains of src/backend/src/middleware/validation.js and the inline
chains of the expense POST route. Each chain is a pure transformer on the
context: sanitizers inside a chain persist to the body, validators append to
the error accumulator, and every rule of a chain runs (express-validator does
not stop a chain at the first failure). A chain marked optional is skipped
entirely, custom validators included, when its field is undefined. A
non-optional string validator sees the empty string for an undefined field. -/

/-- Income category enumeration of incomeValidations.category and of
validateFinancialConsistency. -/
def validIncomeCategories : List String :=
  ["salario", "ventas", "inversiones", "freelance", "bonos", "comisiones",
   "alquiler", "intereses", "dividendos", "reembolsos", "regalos", "otros"]

/-- Expense category enumeration of expenseValidations.category, the expense
POST route and validateFinancialConsistency. -/
def validExpenseCategories : List String :=
  ["alimentacion", "transporte", "vivienda", "servicios", "salud", "educacion",
   "entretenimiento", "ropa", "tecnologia", "deudas", "ahorro", "inversion",
   "impuestos", "seguros", "mantenimiento", "otros"]

/-- Payment methods of transactionValidations.paymentMethod. -/
def validPaymentMethods : List String :=
  ["efectivo", "tarjeta_debito", "tarjeta_credito", "transferencia", "cheque",
   "crypto", "otros"]

/-- Recurrence frequencies of the recurringFrequency chains in validation.js. -/
def validFrequencies : List String :=
  ["diario", "semanal", "mensual", "trimestral", "anual"]

/-- Character class of the description regex: letters, digits, Spanish
accented letters, whitespace, hyphen, dot, comma and parentheses. -/
def descCharOk (ch : Char) : Bool :=
  (97 ≤ ch.toNat && ch.toNat ≤ 122) || (65 ≤ ch.toNat && ch.toNat ≤ 90) ||
  isDigitCh ch || "áéíóúÁÉÍÓÚñÑ".data.contains ch || isJsSpace ch ||
  ch == '-' || ch == '.' || ch == ',' || ch == '(' || ch == ')'

/-- Anchored one-or-more match of the description character class. -/
def matchesDescRe (s : String) : Bool := !s.isEmpty && s.data.all descCharOk

/-- Character class of the tag regex: letters, digits, accents, whitespace,
hyphen and underscore. -/
def tagCharOk (ch : Char) : Bool :=
  (97 ≤ ch.toNat && ch.toNat ≤ 122) || (65 ≤ ch.toNat && ch.toNat ≤ 90) ||
  isDigitCh ch || "áéíóúÁÉÍÓÚñÑ".data.contains ch || isJsSpace ch ||
  ch == '-' || ch == '_'

/-- Anchored one-or-more match of the tag character class. -/
def matchesTagRe (s : String) : Bool := !s.isEmpty && s.data.all tagCharOk

/-- transactionValidations.description: trim, length 1 to 200, character
class. -/
def transactionValidationsDescription (c : Ctx) : Ctx :=
  let present := (getF c.body "description").isSome
  let t := jsTrim (fieldS c.body "description")
  let c1 := if present then { c with body := setF c.body "description" (.jstr t) } else c
  let c2 :=
    if 1 ≤ t.length && t.length ≤ 200 then c1
    else addErr c1 "description" "La descripción debe tener entre 1 y 200 caracteres"
  if matchesDescRe t then c2
  else addErr c2 "description" "La descripción contiene caracteres no válidos"

/-- Range of the amount rule as scaled integers: 0.01 to 999999999.99. -/
def amountInRange (q : QVal) : Bool :=
  qLe ⟨1, 2⟩ q && qLe q ⟨99999999999, 2⟩

/-- The list after the first dot, when a dot occurs. -/
def afterFirstDot : List Char → Option (List Char)
  | [] => none
  | c :: t => if c == '.' then some t else afterFirstDot t

/-- The prefix up to the next dot. -/
def upToDot : List Char → List Char
  | [] => []
  | c :: t => if c == '.' then [] else c :: upToDot t

/-- Second component of value.toString().split at the dot, as the amount
custom rule reads it. -/
def splitDotSecond (s : String) : Option String :=
  (afterFirstDot s.data).map (fun t => (⟨upToDot t⟩ : String))

/-- transactionValidations.amount: isFloat within 0.01 to 999999999.99, then
the custom rule rejecting more than two digits after the dot of the value as
printed. The custom rule calls toString on the raw value, so an undefined or
null amount makes it throw; express-validator records the thrown message as
the validation error for the field (message text elided as TypeError). -/
def transactionValidationsAmount (c : Ctx) : Ctx :=
  let av := getF c.body "amount"
  let rangeOk := match av with
    | some (.jnum d) => amountInRange d.toQ
    | some (.jstr s) =>
      match jsStrictNum s with
      | some d => amountInRange d.toQ
      | none => false
    | _ => false
  let c1 :=
    if rangeOk then c
    else addErr c "amount" "El monto debe ser un número entre 0.01 y 999,999,999.99"
  match av with
  | none => addErr c1 "amount" "TypeError"
  | some .jnull => addErr c1 "amount" "TypeError"
  | some v =>
    let p := splitDotSecond (jsDotToString v)
    if (match p with
        | some f => !f.isEmpty && 2 < f.length
        | none => false) then
      addErr c1 "amount" "El monto no puede tener más de 2 decimales"
    else c1

/-- transactionValidations.date: isISO8601, then the custom window of one
year in the past to one year in the future, both bounds built from the civil
date of now. An unparseable value only fails the format rule, since the
invalid-date comparisons of the custom rule are both false. -/
def transactionValidationsDate (c : Ctx) : Ctx :=
  let s := fieldS c.body "date"
  let c1 :=
    if (jsParseDateMs s).isSome then c
    else addErr c "date" "La fecha debe ser válida (formato ISO 8601)"
  match jsParseDateMs s with
  | none => c1
  | some t =>
    let cv := civilFromDays (Int.fdiv c.nowMs msPerDay)
    let oneYearAgo := daysFromCivil (cv.1 - 1) cv.2.1 cv.2.2 * msPerDay
    let oneYearFromNow := daysFromCivil (cv.1 + 1) cv.2.1 cv.2.2 * msPerDay
    if t < oneYearAgo then addErr c1 "date" "La fecha no puede ser anterior a un año"
    else if oneYearFromNow < t then addErr c1 "date" "La fecha no puede ser posterior a un año"
    else c1

/-- transactionValidations.paymentMethod: enumeration membership (the field is
not optional, so an absent value fails as the empty string). -/
def transactionValidationsPaymentMethod (c : Ctx) : Ctx :=
  if validPaymentMethods.contains (fieldS c.body "paymentMethod") then c
  else addErr c "paymentMethod" "Método de pago no válido"

/-- transactionValidations.notes: optional; trim, then at most 500
characters. -/
def transactionValidationsNotes (c : Ctx) : Ctx :=
  match getF c.body "notes" with
  | none => c
  | some v =>
    let t := jsTrim (jsToStr v)
    let c1 := { c with body := setF c.body "notes" (.jstr t) }
    if t.length ≤ 500 then c1
    else addErr c1 "notes" "Las notas no pueden exceder 500 caracteres"

/-- transactionValidations.tags: optional; isArray with at most 10 entries. -/
def transactionValidationsTags (c : Ctx) : Ctx :=
  match getF c.body "tags" with
  | none => c
  | some (.jarr l) =>
    if l.length ≤ 10 then c
    else addErr c "tags" "No se pueden agregar más de 10 etiquetas"
  | some _ => addErr c "tags" "No se pueden agregar más de 10 etiquetas"

/-- transactionValidations.tagItem, the wildcard chain over tags: per element,
trim (persisted), length 1 to 20, tag character class. -/
def transactionValidationsTagItem (c : Ctx) : Ctx :=
  match getF c.body "tags" with
  | some (.jarr l) =>
    let trimmed := l.map (fun e => JVal.jstr (jsTrim (jsToStr e)))
    let c1 := { c with body := setF c.body "tags" (.jarr trimmed) }
    ((List.range l.length).zip (l.map (fun e => jsTrim (jsToStr e)))).foldl
      (fun acc p =>
        let fname := "tags[" ++ toString p.1 ++ "]"
        let acc1 :=
          if 1 ≤ p.2.length && p.2.length ≤ 20 then acc
          else addErr acc fname "Cada etiqueta debe tener entre 1 y 20 caracteres"
        if matchesTagRe p.2 then acc1
        else addErr acc1 fname
          "Las etiquetas solo pueden contener letras, números, espacios, guiones y guiones bajos")
      c1
  | _ => c

/-- incomeValidations.category: enumeration membership (not optional). -/
def incomeValidationsCategory (c : Ctx) : Ctx :=
  if validIncomeCategories.contains (fieldS c.body "category") then c
  else addErr c "category" "Categoría de ingreso no válida"

/-- incomeValidations.isRecurring: optional; isBoolean. -/
def incomeValidationsIsRecurring (c : Ctx) : Ctx :=
  match getF c.body "isRecurring" with
  | none => c
  | some v =>
    if jsToStr v == "true" || jsToStr v == "false" then c
    else addErr c "isRecurring" "isRecurring debe ser un valor booleano"

/-- incomeValidations.recurringFrequency: the chain is optional, so an
undefined value skips every rule of the chain, the required-when-isRecurring
custom rule included. A present value is checked against the frequency
enumeration, and the custom rule fails when isRecurring is truthy and the
value falsy. -/
def incomeValidationsRecurringFrequency (c : Ctx) : Ctx :=
  match getF c.body "recurringFrequency" with
  | none => c
  | some v =>
    let c1 :=
      if validFrequencies.contains (jsToStr v) then c
      else addErr c "recurringFrequency" "Frecuencia de recurrencia no válida"
    if jsTruthy (getF c.body "isRecurring") && !(jsTruthy (some v)) then
      addErr c1 "recurringFrequency"
        "La frecuencia de recurrencia es requerida cuando isRecurring es true"
    else c1

/-- handleValidationErrors: with a non-empty accumulator, respond 400 with
the full formatted list; otherwise pass through. -/
def handleValidationErrors (c : Ctx) : Step :=
  if c.errors.isEmpty then .next c
  else .respond ⟨400, "Datos de entrada inválidos", c.errors⟩

/-!
Business-rule middleware of src/backend/src/middleware/businessValidation.js.
Every passing business check returns the context unchanged: these stages only
read the store.
-/

/-- User.findById. -/
def findUser (st : Store) (uid : Nat) : Option User :=
  st.users.find? (fun u => u.id == uid)

/-- validateActiveUser: 404 when the principal has no user document, 403 when
the document is inactive, 401 when the last login lies more than 90 days in
the past (a null lastLogin converts to the epoch), otherwise pass. -/
def validateActiveUser (c : Ctx) : Step :=
  match findUser c.store c.userId with
  | none => .respond ⟨404, "Usuario no encontrado", []⟩
  | some u =>
    if !u.isActive then .respond ⟨403, "Cuenta desactivada", []⟩
    else
      let ll := match u.lastLogin with
        | some t => t
        | none => 0
      if 90 * msPerDay < c.nowMs - ll then
        .respond ⟨401, "Sesión expirada por inactividad", []⟩
      else .next c

/-- Count of active incomes of the principal on the calendar day of the draft
date (the source counts only the Income collection, and an invalid date
matches no document). -/
def dailyIncomeCount (st : Store) (uid : Nat) (dateStr : String) : Nat :=
  match jsParseDateMs dateStr with
  | some t =>
    let d0 := Int.fdiv t msPerDay * msPerDay
    (st.incomes.filter (fun tx =>
      tx.user == uid && decide (d0 ≤ tx.date) && decide (tx.date < d0 + msPerDay) &&
      tx.isActive)).length
  | none => 0

/-- validateTransactionLimits: 429 when the principal already has 50 incomes
on the day of the draft, then 400 when the amount exceeds 1000000. -/
def validateTransactionLimits (c : Ctx) : Step :=
  if 50 ≤ dailyIncomeCount c.store c.userId (fieldS c.body "date") then
    .respond ⟨429, "Límite diario de transacciones excedido", []⟩
  else if (match jsNumberOf (getF c.body "amount") with
           | some d => qLt ⟨1000000, 0⟩ d.toQ
           | none => false) then
    .respond ⟨400, "Monto excesivo", []⟩
  else .next c

/-- validateFinancialConsistency: non-positive amount 400, date more than 30
days in the future 400, then the per-kind category checks. The kind flags
test req.path, which inside the mounted router is the mount-relative path, so
for the POST routes both flags are false and the category branches are
unreachable. -/
def validateFinancialConsistency (c : Ctx) : Step :=
  let isIncome := strHasSub "/incomes" c.reqPath
  let isExpense := strHasSub "/expenses" c.reqPath
  if (match jsNumberOf (getF c.body "amount") with
      | some d => qLe d.toQ ⟨0, 0⟩
      | none => false) then
    .respond ⟨400, "Monto inválido", []⟩
  else if (match jsParseDateMs (fieldS c.body "date") with
           | some t => decide (c.nowMs + 30 * msPerDay < t)
           | none => false) then
    .respond ⟨400, "Fecha inválida", []⟩
  else if isIncome && !(validIncomeCategories.contains (fieldS c.body "category")) then
    .respond ⟨400, "Categoría inválida", []⟩
  else if isExpense && !(validExpenseCategories.contains (fieldS c.body "category")) then
    .respond ⟨400, "Categoría inválida", []⟩
  else .next c

/-- Plan limit table of validateUserPlanLimits as (maxTransactions, maxTags);
maxCategories is never read. -/
def planLimits (plan : String) : Int × Int :=
  if plan == "free" then (100, 5)
  else if plan == "premium" then (1000, 20)
  else (-1, -1)

/-- Active transactions of the principal across both collections. -/
def activeTxnCount (st : Store) (uid : Nat) : Nat :=
  (st.incomes.filter (fun t => t.user == uid && t.isActive)).length +
  (st.expenses.filter (fun t => t.user == uid && t.isActive)).length

/-- validateUserPlanLimits: the user document is fetched; userSchema defines
no plan path, so user.plan is always undefined and the fallback selects the
free tier for every principal. 429 once the combined active transaction count
reaches the tier ceiling, then 400 when a present tags value is longer than
the tier tag ceiling. -/
def validateUserPlanLimits (c : Ctx) : Step :=
  match findUser c.store c.userId with
  | none => .respond ⟨404, "Usuario no encontrado", []⟩
  | some _ =>
    let limits := planLimits "free"
    if 0 < limits.1 && limits.1 ≤ (activeTxnCount c.store c.userId : Int) then
      .respond ⟨429, "Límite de plan excedido", []⟩
    else if 0 < limits.2 && jsTruthy (getF c.body "tags") &&
            jsLenGt (getF c.body "tags") limits.2.toNat then
      .respond ⟨400, "Límite de etiquetas excedido", []⟩
    else .next c

/-- Duplicate query of validateDataIntegrity: an active transaction of the
principal with the same amount, date and category, in the income or the
expense collection. -/
def dupExists (st : Store) (uid : Nat) (q : QVal) (dms : Int) (cat : String) : Bool :=
  st.incomes.any (fun t =>
    t.user == uid && qEq t.amount.toQ q && t.date == dms && t.category == cat &&
    t.isActive) ||
  st.expenses.any (fun t =>
    t.user == uid && qEq t.amount.toQ q && t.date == dms && t.category == cat &&
    t.isActive)

/-- parseFloat(amount) of the body value, as the duplicate query builds it. -/
def amountQOf (b : Fields) : Option QVal :=
  match getF b "amount" with
  | some (.jnum d) => some d.toQ
  | some (.jstr s) => (jsParseFloat s).map DecNum.toQ
  | _ => none

/-- new Date(date) of the body value, as the duplicate query builds it. -/
def dateMsOf (b : Fields) : Option Int :=
  match getF b "date" with
  | some (.jstr s) => jsParseDateMs s
  | some (.jnum d) => if d.frac.isEmpty && !d.neg then some d.intPart else none
  | _ => none

/-- The category value of the body when it is a string (a non-string category
matches no document in the store). -/
def catOf (b : Fields) : Option String :=
  match getF b "category" with
  | some (.jstr s) => some s
  | _ => none

/-- validateDataIntegrity: when amount, date and category are all truthy, look
for a duplicate with parseFloat(amount) and new Date(date); a parse failure
(NaN amount or invalid date) matches no document. 409 on a duplicate,
otherwise pass. -/
def validateDataIntegrity (c : Ctx) : Step :=
  if jsTruthy (getF c.body "amount") && jsTruthy (getF c.body "date") &&
     jsTruthy (getF c.body "category") then
    match amountQOf c.body, dateMsOf c.body, catOf c.body with
    | some q, some dms, some cat =>
      if dupExists c.store c.userId q dms cat then
        .respond ⟨409, "Transacción duplicada", []⟩
      else .next c
    | _, _, _ => .next c
  else .next c

/-!
Handlers (incomeController.createIncome, expenseController.createExpense) and
the Mongoose document cast they trigger on save. A failing schema validation
on save is caught by the controller and surfaced as 500.
-/

/-- Payment method enumeration of the Mongoose schemas (narrower than the one
in transactionValidations). -/
def mongoosePaymentMethods : List String :=
  ["efectivo", "tarjeta", "transferencia", "cheque", "crypto", "otros"]

/-- Frequency enumeration of the Mongoose schemas (narrower than the one in
validation.js). -/
def mongooseFrequencies : List String :=
  ["semanal", "quincenal", "mensual", "trimestral", "anual"]

/-- Cast and validate a transaction document from the body, per the shared
shape of incomeSchema and expenseSchema: description required, trimmed, 3 to
200; amount required within 0.01 to 999999999.99; category required within
the given enumeration; date defaulting to now; paymentMethod defaulting to
efectivo within the schema enumeration; recurringFrequency required exactly
when isRecurring casts to true and drawn from the schema enumeration when
present; notes at most 500 after trim; tags strings of at most 20 after trim;
isActive defaulting to true. -/
def castTxnDoc (cats : List String) (c : Ctx) : Option Txn := do
  let descV ← getF c.body "description"
  let ds ← (match descV with
    | .jstr s => some (jsTrim s)
    | _ => none)
  if !(3 ≤ ds.length && ds.length ≤ 200) then none
  else
  let am ← (match getF c.body "amount" with
    | some (.jnum d) => some d
    | some (.jstr s) => jsStrictNum s
    | _ => none)
  if !amountInRange am.toQ then none
  else
  let cat ← (match getF c.body "category" with
    | some (.jstr s) => some s
    | _ => none)
  if !(cats.contains cat) then none
  else
  let dms ← (match getF c.body "date" with
    | some (.jstr s) => jsParseDateMs s
    | some (.jnum d) => if d.frac.isEmpty && !d.neg then some d.intPart else none
    | none => some c.nowMs
    | _ => none)
  let pm ← (match getF c.body "paymentMethod" with
    | some (.jstr s) => some s
    | none => some "efectivo"
    | _ => none)
  if !(mongoosePaymentMethods.contains pm) then none
  else
  let recOk :=
    if jsTruthy (getF c.body "isRecurring") then
      match getF c.body "recurringFrequency" with
      | some (.jstr f) => mongooseFrequencies.contains f
      | _ => false
    else
      match getF c.body "recurringFrequency" with
      | some (.jstr f) => mongooseFrequencies.contains f
      | none => true
      | _ => false
  if !recOk then none
  else
  let notesOk := match getF c.body "notes" with
    | some (.jstr s) => (jsTrim s).length ≤ 500
    | none => true
    | _ => false
  if !notesOk then none
  else
  let tagsOk := match getF c.body "tags" with
    | some (.jarr l) => l.all (fun e =>
        match e with
        | .jstr s => (jsTrim s).length ≤ 20
        | _ => false)
    | none => true
    | _ => false
  if !tagsOk then none
  else
  let act := match getF c.body "isActive" with
    | some (.jbool b) => b
    | none => true
    | some v => jsTruthy (some v)
  some ⟨c.userId, ds, am, cat, dms, pm, act⟩

/-- createIncome: re-check validationResult (400 on errors), then save the
document built from the spread body; a Mongoose validation failure is caught
as 500, success answers 201 and appends the document. -/
def createIncome (c : Ctx) : Resp × Store :=
  if !c.errors.isEmpty then
    (⟨400, "Datos de entrada inválidos", c.errors⟩, c.store)
  else
    match castTxnDoc validIncomeCategories c with
    | some t =>
      (⟨201, "Ingreso creado exitosamente", []⟩,
       { c.store with incomes := c.store.incomes ++ [t] })
    | none => (⟨500, "Error interno del servidor", []⟩, c.store)

/-- createExpense: same shape as createIncome over the expense collection. -/
def createExpense (c : Ctx) : Resp × Store :=
  if !c.errors.isEmpty then
    (⟨400, "Datos de entrada inválidos", c.errors⟩, c.store)
  else
    match castTxnDoc validExpenseCategories c with
    | some t =>
      (⟨201, "Gasto creado exitosamente", []⟩,
       { c.store with expenses := c.store.expenses ++ [t] })
    | none => (⟨500, "Error interno del servidor", []⟩, c.store)

/-!
Inline validation chains of the expense POST route (src/routes/expense.js).
The route wires no guard, no sanitizer and no business middleware; the
handler itself reads validationResult.
-/

/-- Shared isFloat range check on a possibly absent amount value. -/
def isFloatAmountOk (av : Option JVal) : Bool :=
  match av with
  | some (.jnum d) => amountInRange d.toQ
  | some (.jstr s) =>
    match jsStrictNum s with
    | some d => amountInRange d.toQ
    | none => false
  | _ => false

/-- Inline description chain of the expense POST route: trim, length 3 to
200. -/
def expensePostDescription (c : Ctx) : Ctx :=
  let present := (getF c.body "description").isSome
  let t := jsTrim (fieldS c.body "description")
  let c1 := if present then { c with body := setF c.body "description" (.jstr t) } else c
  if 3 ≤ t.length && t.length ≤ 200 then c1
  else addErr c1 "description" "La descripción debe tener entre 3 y 200 caracteres"

/-- Inline amount chain of the expense POST route: isFloat range only. -/
def expensePostAmount (c : Ctx) : Ctx :=
  if isFloatAmountOk (getF c.body "amount") then c
  else addErr c "amount" "El monto debe ser un número entre 0.01 y 999,999,999.99"

/-- Inline category chain of the expense POST route. -/
def expensePostCategory (c : Ctx) : Ctx :=
  if validExpenseCategories.contains (fieldS c.body "category") then c
  else addErr c "category" "Categoría no válida"

/-- Inline optional date chain of the expense POST route. -/
def expensePostDate (c : Ctx) : Ctx :=
  match getF c.body "date" with
  | none => c
  | some v =>
    if (jsParseDateMs (jsToStr v)).isSome then c
    else addErr c "date" "La fecha debe ser válida"

/-- Inline optional paymentMethod chain of the expense POST route (the list
here matches the Mongoose enumeration, not the one of validation.js). -/
def expensePostPaymentMethod (c : Ctx) : Ctx :=
  match getF c.body "paymentMethod" with
  | none => c
  | some v =>
    if mongoosePaymentMethods.contains (jsToStr v) then c
    else addErr c "paymentMethod" "Método de pago no válido"

/-- Inline optional notes chain of the expense POST route (no trim). -/
def expensePostNotes (c : Ctx) : Ctx :=
  match getF c.body "notes" with
  | none => c
  | some v =>
    if (jsToStr v).length ≤ 500 then c
    else addErr c "notes" "Las notas no pueden exceder 500 caracteres"

/-- Inline optional isRecurring chain of the expense POST route. -/
def expensePostIsRecurring (c : Ctx) : Ctx :=
  match getF c.body "isRecurring" with
  | none => c
  | some v =>
    if jsToStr v == "true" || jsToStr v == "false" then c
    else addErr c "isRecurring" "isRecurring debe ser un booleano"

/-- Inline optional recurringFrequency chain of the expense POST route: plain
enumeration membership; there is no required-when-isRecurring rule here. -/
def expensePostRecurringFrequency (c : Ctx) : Ctx :=
  match getF c.body "recurringFrequency" with
  | none => c
  | some v =>
    if mongooseFrequencies.contains (jsToStr v) then c
    else addErr c "recurringFrequency" "Frecuencia de recurrencia no válida"

/-- Inline optional tags chain of the expense POST route: isArray with no
bound. -/
def expensePostTags (c : Ctx) : Ctx :=
  match getF c.body "tags" with
  | none => c
  | some (.jarr _) => c
  | some _ => addErr c "tags" "Los tags deben ser un array"

/-- Inline optional per-element tag chain of the expense POST route: at most
20 characters, no trim, no lower bound, no character class. -/
def expensePostTagItem (c : Ctx) : Ctx :=
  match getF c.body "tags" with
  | some (.jarr l) =>
    ((List.range l.length).zip l).foldl
      (fun acc p =>
        if (jsToStr p.2).length ≤ 20 then acc
        else addErr acc ("tags[" ++ toString p.1 ++ "]")
          "Cada tag no puede exceder 20 caracteres")
      c
  | _ => c

/-- Inline optional isEssential chain of the expense POST route. -/
def expensePostIsEssential (c : Ctx) : Ctx :=
  match getF c.body "isEssential" with
  | none => c
  | some v =>
    if jsToStr v == "true" || jsToStr v == "false" then c
    else addErr c "isEssential" "isEssential debe ser un booleano"

/-!
Route pipelines. A stage is a labelled middleware; runStages executes them in
order, recording the label of every stage that ran, and stops at the first
response. runRoute finishes with the handler.
-/

/-- A labelled middleware. -/
abbrev Stage := String × (Ctx → Step)

/-- A validation or sanitizer chain as a stage: chains never respond. -/
def chainStage (n : String) (f : Ctx → Ctx) : Stage := (n, fun c => .next (f c))

/-- Execute stages in order; the trace lists every stage that ran, including
the one that responded. -/
def runStages : List Stage → Ctx → List String × Step
  | [], c => ([], .next c)
  | st :: rest, c =>
    match st.2 c with
    | .next c2 =>
      let r := runStages rest c2
      (st.1 :: r.1, r.2)
    | .respond resp => ([st.1], .respond resp)

/-- Execute a route: stages then handler. -/
def runRoute (stages : List Stage) (handler : Ctx → Resp × Store) (c : Ctx) :
    List String × Resp × Store :=
  match runStages stages c with
  | (tr, .next c2) =>
    let hr := handler c2
    (tr ++ ["handler"], hr.1, hr.2)
  | (tr, .respond r) => (tr, r, c.store)

/-- Stages of POST /api/incomes before the business rules: guards, sanitizer
chains and validation chains, in route order. -/
def incomePreStages : List Stage :=
  [("validateContentType", validateContentType ["application/json"]),
   ("limitDataSize", limitDataSize 2048),
   ("preventInjection", preventInjection),
   ("sanitizeInput", sanitizeInput),
   chainStage "sanitizeDescription" sanitizeDescription,
   chainStage "sanitizeNotes" sanitizeNotes,
   chainStage "sanitizeTags" sanitizeTags,
   chainStage "sanitizeDate" sanitizeDate,
   chainStage "sanitizeNumericFields.amount" sanitizeNumericFieldsAmount,
   chainStage "sanitizeBooleanFields.isRecurring" sanitizeBooleanFieldsIsRecurring,
   chainStage "transactionValidations.description" transactionValidationsDescription,
   chainStage "transactionValidations.amount" transactionValidationsAmount,
   chainStage "transactionValidations.date" transactionValidationsDate,
   chainStage "transactionValidations.paymentMethod" transactionValidationsPaymentMethod,
   chainStage "transactionValidations.notes" transactionValidationsNotes,
   chainStage "transactionValidations.tags" transactionValidationsTags,
   chainStage "transactionValidations.tagItem" transactionValidationsTagItem,
   chainStage "incomeValidations.category" incomeValidationsCategory,
   chainStage "incomeValidations.isRecurring" incomeValidationsIsRecurring,
   chainStage "incomeValidations.recurringFrequency" incomeValidationsRecurringFrequency]

/-- Business-rule stages of POST /api/incomes, in route order. -/
def incomeBusinessStages : List Stage :=
  [("validateActiveUser", validateActiveUser),
   ("validateTransactionLimits", validateTransactionLimits),
   ("validateFinancialConsistency", validateFinancialConsistency),
   ("validateUserPlanLimits", validateUserPlanLimits),
   ("validateDataIntegrity", validateDataIntegrity)]

/-- Full middleware array of POST /api/incomes as wired in the route file:
guards, sanitizers, validation chains, business rules, and
handleValidationErrors in last position, before the handler. -/
def incomePostStages : List Stage :=
  incomePreStages ++ incomeBusinessStages ++
  [("handleValidationErrors", handleValidationErrors)]

/-- The stages of POST /api/incomes from the first business rule on. -/
def incomeTailStages : List Stage :=
  incomeBusinessStages ++ [("handleValidationErrors", handleValidationErrors)]

/-- POST /api/incomes. -/
def runIncomeCreate (c : Ctx) : List String × Resp × Store :=
  runRoute incomePostStages createIncome c

/-- Full middleware array of POST /api/expenses as wired in the route file:
only the inline validation chains. -/
def expensePostStages : List Stage :=
  [chainStage "inline.description" expensePostDescription,
   chainStage "inline.amount" expensePostAmount,
   chainStage "inline.category" expensePostCategory,
   chainStage "inline.date" expensePostDate,
   chainStage "inline.paymentMethod" expensePostPaymentMethod,
   chainStage "inline.notes" expensePostNotes,
   chainStage "inline.isRecurring" expensePostIsRecurring,
   chainStage "inline.recurringFrequency" expensePostRecurringFrequency,
   chainStage "inline.tags" expensePostTags,
   chainStage "inline.tagItem" expensePostTagItem,
   chainStage "inline.isEssential" expensePostIsEssential]

/-- POST /api/expenses. -/
def runExpenseCreate (c : Ctx) : List String × Resp × Store :=
  runRoute expensePostStages createExpense c

/-!
Derived views of a pipeline run and the sanitizer stage in isolation.
-/

/-- The context after the guard, sanitizer and validation-chain prefix of the
income POST route, defaulting to the input context when that prefix responded
early. -/
def preCtx (c : Ctx) : Ctx := ((runStages incomePreStages c).2).ctxD c

/-- True when the guard, sanitizer and validation-chain prefix of the income
POST route passed control through to the business rules. -/
def prePasses (c : Ctx) : Bool := ((runStages incomePreStages c).2).isNext

/-- The sanitizer stage of the income POST route in isolation: sanitizeInput
followed by the six field sanitizer chains in route order; none when
sanitizeInput threw. -/
def sanitizerChain (c : Ctx) : Option Ctx :=
  match sanitizeInput c with
  | .next c1 =>
    some (sanitizeBooleanFieldsIsRecurring (sanitizeNumericFieldsAmount (sanitizeDate
      (sanitizeTags (sanitizeNotes (sanitizeDescription c1))))))
  | .respond _ => none

/-- The description value of a context inside an optional, as a string. -/
def descValOf : Option Ctx → Option String
  | some c =>
    match getF c.body "description" with
    | some (.jstr s) => some s
    | _ => none
  | none => none

/-- A character untouched by the escape and stripLow sanitizers. -/
def cleanChar (ch : Char) : Bool := (escMap ch == [ch]) && !(isStrippedLow ch)

/-- A string untouched by the escape and stripLow sanitizers. -/
def cleanStr (s : String) : Bool := s.data.all cleanChar

/-- The element transform of the sanitizeTags customSanitizer. -/
def tagMap (t : JVal) : JVal :=
  match t with
  | .jstr s => JVal.jstr (jsLower (jsTrim s))
  | x => x

/-- One full pass of the sanitizeTags customSanitizer over an array value. -/
def tagsRound (l : List JVal) : List JVal := (l.map tagMap).filter tagKept

/-!
Concrete fixtures: a reference instant, principals, stores and drafts used to
instantiate the theorems.
-/

/-- Reference instant: 2026-10-10 UTC midnight. -/
def tNow : Int := daysFromCivil 2026 10 10 * msPerDay

/-- An active principal with a current login. -/
def userActive : User := ⟨1, true, some tNow⟩

/-- The same principal, deactivated. -/
def userInactive : User := ⟨1, false, some tNow⟩

/-- Store with just the active principal. -/
def storeA : Store := ⟨[userActive], [], []⟩

/-- A request context for the mutating transaction routes: JSON content type,
small payload, the mount-relative path the router presents, principal 1, no
query parameters, at the reference instant. -/
def mkCtx (b : Fields) (st : Store) : Ctx :=
  ⟨b, [], some "application/json", 100, "/", 1, st, [], tNow⟩

/-- A parametric draft body with every standard field present. -/
def draftBody (ds : String) (am : JVal) (cat dt pm nt : String) (tags : List JVal)
    (r : Bool) : Fields :=
  [("description", .jstr ds), ("amount", am), ("category", .jstr cat),
   ("date", .jstr dt), ("paymentMethod", .jstr pm), ("notes", .jstr nt),
   ("tags", .jarr tags), ("isRecurring", .jbool r)]

/-- A schema-valid income draft. -/
def bodyValid : Fields :=
  [("description", .jstr "Salario mensual"),
   ("amount", .jnum ⟨false, 100, []⟩),
   ("category", .jstr "salario"),
   ("date", .jstr "2026-10-10"),
   ("paymentMethod", .jstr "efectivo")]

/-- The same draft with a description failing the character-class rule. -/
def bodyBadDesc : Fields :=
  [("description", .jstr "!!!"),
   ("amount", .jnum ⟨false, 100, []⟩),
   ("category", .jstr "salario"),
   ("date", .jstr "2026-10-10"),
   ("paymentMethod", .jstr "efectivo")]

/-- The valid draft with a category belonging to neither enumeration. -/
def bodyBadCat : Fields :=
  [("description", .jstr "Salario mensual"),
   ("amount", .jnum ⟨false, 100, []⟩),
   ("category", .jstr "comida"),
   ("date", .jstr "2026-10-10"),
   ("paymentMethod", .jstr "efectivo")]

/-- The valid draft with amount given as the decimal string 10.120, which has
three digits after the decimal point. -/
def bodyAmount3Dec : Fields :=
  [("description", .jstr "Salario mensual"),
   ("amount", .jstr "10.120"),
   ("category", .jstr "salario"),
   ("date", .jstr "2026-10-10"),
   ("paymentMethod", .jstr "efectivo")]

/-- The valid draft marked recurring without a recurringFrequency. -/
def bodyRecurringNoFreq : Fields :=
  bodyValid ++ [("isRecurring", .jbool true)]

/-- The valid draft explicitly not recurring, recurringFrequency absent. -/
def bodyNotRecurring : Fields :=
  bodyValid ++ [("isRecurring", .jbool false)]

/-- The valid draft with six tags. -/
def bodySixTags : Fields :=
  bodyValid ++ [("tags", .jarr (["a", "b", "c", "d", "e", "f"].map JVal.jstr))]

/-- A valid expense draft whose notes carry a script element. -/
def bodyExpenseScript : Fields :=
  [("description", .jstr "Compra semanal"),
   ("amount", .jnum ⟨false, 50, []⟩),
   ("category", .jstr "alimentacion"),
   ("notes", .jstr "<script>alert(1)</script>")]

/-- An active income of principal 1 on the reference day with a distinct
amount. -/
def mkIncomeOn (day : Int) (i : Nat) : Txn :=
  ⟨1, "registro", ⟨false, i + 1, []⟩, "salario", day, "efectivo", true⟩

/-- Store for the ordering scenario: the deactivated principal already holds
50 active incomes on the reference day, so the volume limit is also hit. -/
def storeInactiveFull : Store :=
  ⟨[userInactive], (List.range 50).map (mkIncomeOn tNow), []⟩

/-- Store for the plan-quota scenario: the active principal holds 100 active
incomes on an earlier day. -/
def storeHundred : Store :=
  ⟨[userActive], (List.range 100).map (mkIncomeOn (tNow - 40 * msPerDay)), []⟩

/-- Context of the schema-invalid income request. -/
def ctxBadDesc : Ctx := mkCtx bodyBadDesc storeA

/-- Context of the expense request carrying a script payload. -/
def ctxExpenseScript : Ctx := mkCtx bodyExpenseScript storeA

/-- Context of the invalid-category income request. -/
def ctxBadCat : Ctx := mkCtx bodyBadCat storeA

/-- Context of the recurring-without-frequency income request. -/
def ctxRecurringNoFreq : Ctx := mkCtx bodyRecurringNoFreq storeA

/-- Context of the non-recurring income request. -/
def ctxNotRecurring : Ctx := mkCtx bodyNotRecurring storeA

/-- Context of the ordering scenario. -/
def ctxInactiveFull : Ctx := mkCtx bodyValid storeInactiveFull

/-- Context of the first duplicate-scenario request. -/
def ctxDupFirst : Ctx := mkCtx bodyValid storeA

/-- Context of the second duplicate-scenario request, against the store left
by the first. -/
def ctxDupSecond : Ctx := mkCtx bodyValid (runIncomeCreate ctxDupFirst).2.2

/-- Context of the three-decimals amount request. -/
def ctxAmount3Dec : Ctx := mkCtx bodyAmount3Dec storeA

/-- Context of the sanitizer idempotence counterexample: the description is a
single markup character. -/
def ctxEscape : Ctx := mkCtx [("description", .jstr "<")] storeA

/-- Context of the query-parameter request: the body is valid and a string
query parameter is present whose key does not occur in the body. -/
def ctxQuery : Ctx :=
  { mkCtx bodyValid storeA with query := [("q", .jstr " x ")] }

/-- Context of the plan-quota scenario. -/
def ctxHundred : Ctx := mkCtx bodyValid storeHundred

/-- Context of the six-tags scenario. -/
def ctxSixTags : Ctx := mkCtx bodySixTags storeA

/-- A context carrying only an amount, for statements about the amount rule
in isolation. -/
def mkAmountCtx (s : String) : Ctx := mkCtx [("amount", .jstr s)] storeA

/-- A clean full draft at the canonical ISO date form, for the sanitizer
idempotence witness. -/
def ctxDraftClean : Ctx :=
  mkCtx (draftBody "Salario mensual" (.jnum ⟨false, 100, []⟩) "salario"
    "2026-10-10T00:00:00.000Z" "efectivo" "nota breve"
    [JVal.jstr "Trabajo", JVal.jstr ""] true) storeA

end FinApp

namespace FinApp

/-- C4: for a draft with isRecurring true and recurringFrequency absent, the
schema validator accumulates no error at all (the optional chain is skipped
wholesale), the pipeline reaches the save, and the save fails with 500 from
the Mongoose required validator rather than the claimed validation failure;
with isRecurring false and the frequency absent the draft passes end to end
with 201, confirming the second half of the claim. -/
theorem C4_theorem :
    (preCtx ctxRecurringNoFreq).errors = [] ∧
    (runIncomeCreate ctxRecurringNoFreq).2.1 = ⟨500, "Error interno del servidor", []⟩ ∧
    (preCtx ctxNotRecurring).errors = [] ∧
    (runIncomeCreate ctxNotRecurring).2.1.status = 201 :=
  ⟨by rfl, by rfl, by rfl, by rfl⟩

/-- C3: on a create-income draft whose category belongs to neither
enumeration, the schema chain records the category error, but the business
evaluator validateFinancialConsistency passes the request: inside the mounted
router the request path is the mount-relative /, so its income and expense
category branches never fire, and removing the schema check would leave the
invalid category accepted. -/
theorem C3_theorem :
    (incomeValidationsCategory ctxBadCat).errors =
      [⟨"category", "Categoría de ingreso no válida"⟩] ∧
    validateFinancialConsistency ctxBadCat = .next ctxBadCat :=
  ⟨by rfl, by rfl⟩

/-- C9: a request with a string query parameter whose key is not a string in
the body makes sanitizeInput itself throw (the source reads req.body[key]
inside the query loop), terminating the pipeline with the error-handler 500
response; the sanitizer stage is therefore able to reject a request. -/
theorem C9_theorem :
    sanitizeInput ctxQuery = .respond ⟨500, "TypeError", []⟩ ∧
    (runIncomeCreate ctxQuery).2.1 = ⟨500, "TypeError", []⟩ ∧
    (runIncomeCreate ctxQuery).1 =
      ["validateContentType", "limitDataSize", "preventInjection", "sanitizeInput"] :=
  ⟨by rfl, by rfl, by rfl⟩

/-- C7 counterexample: the amount string 10.120 has three digits after the
decimal point, yet the schema validator records no error for it and the
create-income pipeline accepts the draft with 201: the digit-count rule runs
on the string of the parsed number, which prints as 10.12. -/
theorem C7_counterexample :
    splitDotSecond "10.120" = some "120" ∧
    (preCtx ctxAmount3Dec).errors = [] ∧
    (runIncomeCreate ctxAmount3Dec).2.1.status = 201 :=
  ⟨by rfl, by rfl, by rfl⟩

/-- C1 counterexample: on a schema-invalid create-income request the response
is indeed the aggregated 400 payload, but it is produced only after every
business stage ran: validateActiveUser and validateDataIntegrity, both of
which read the store, appear in the executed trace before the response. -/
theorem C1_counterexample :
    (runIncomeCreate ctxBadDesc).2.1 =
      ⟨400, "Datos de entrada inválidos",
       [⟨"description", "La descripción contiene caracteres no válidos"⟩]⟩ ∧
    "validateActiveUser" ∈ (runIncomeCreate ctxBadDesc).1 ∧
    "validateDataIntegrity" ∈ (runIncomeCreate ctxBadDesc).1 :=
  ⟨by rfl, by decide, by decide⟩

/-- C2 counterexample: a mutating expense-creation request whose notes carry a
script element reaches the handler and is persisted with 201; its executed
trace contains no content-type or size guard, no injection guard, no
sanitizer and no business stage, so the claimed five-stage order does not
cover this route. -/
theorem C2_counterexample :
    (runExpenseCreate ctxExpenseScript).1 =
      ["inline.description", "inline.amount", "inline.category", "inline.date",
       "inline.paymentMethod", "inline.notes", "inline.isRecurring",
       "inline.recurringFrequency", "inline.tags", "inline.tagItem",
       "inline.isEssential", "handler"] ∧
    (runExpenseCreate ctxExpenseScript).2.1.status = 201 ∧
    "preventInjection" ∉ (runExpenseCreate ctxExpenseScript).1 ∧
    "sanitizeInput" ∉ (runExpenseCreate ctxExpenseScript).1 ∧
    "validateContentType" ∉ (runExpenseCreate ctxExpenseScript).1 ∧
    "validateActiveUser" ∉ (runExpenseCreate ctxExpenseScript).1 :=
  ⟨by rfl, by rfl, by decide, by decide, by decide, by decide⟩

/-- C2 amended: the income-creation route does assemble the five stage kinds
in the claimed relative order (its aggregated schema-error responder sits
after the business rules, which claim C1 records); the expense-creation route
assembles none of the guard, sanitizer or business stages. -/
theorem C2_amended :
    (let names := incomePostStages.map Prod.fst
     names.indexOf "validateContentType" < names.indexOf "limitDataSize" ∧
     names.indexOf "limitDataSize" < names.indexOf "preventInjection" ∧
     names.indexOf "preventInjection" < names.indexOf "sanitizeInput" ∧
     names.indexOf "sanitizeInput" < names.indexOf "transactionValidations.description" ∧
     names.indexOf "incomeValidations.recurringFrequency" < names.indexOf "validateActiveUser" ∧
     names.indexOf "validateDataIntegrity" < names.indexOf "handleValidationErrors") ∧
    (let enames := expensePostStages.map Prod.fst
     "validateContentType" ∉ enames ∧ "limitDataSize" ∉ enames ∧
     "preventInjection" ∉ enames ∧ "sanitizeInput" ∉ enames ∧
     "validateActiveUser" ∉ enames ∧ "validateTransactionLimits" ∉ enames ∧
     "validateFinancialConsistency" ∉ enames ∧ "validateUserPlanLimits" ∉ enames ∧
     "validateDataIntegrity" ∉ enames ∧ "handleValidationErrors" ∉ enames) := by
  constructor
  · exact ⟨by decide, by decide, by decide, by decide, by decide, by decide⟩
  · exact ⟨by decide, by decide, by decide, by decide, by decide, by decide,
      by decide, by decide, by decide, by decide⟩

/-!
Pipeline decomposition lemmas, shared by the theorems below.
-/

/-- Executing an appended stage list decomposes when the first part passes
control through. -/
theorem runStages_append_next (xs ys : List Stage) (c c2 : Ctx)
    (h : (runStages xs c).2 = Step.next c2) :
    runStages (xs ++ ys) c =
      ((runStages xs c).1 ++ (runStages ys c2).1, (runStages ys c2).2) := by
  induction xs generalizing c with
  | nil =>
    simp only [runStages] at h
    cases h
    simp [runStages]
  | cons st rest ih =>
    rw [List.cons_append]
    simp only [runStages] at h ⊢
    split at h
    · rename_i cm hs
      dsimp only at h ⊢
      rw [ih cm h]
      simp
    · rename_i r hs
      dsimp only at h
      simp at h

/-- When the guard, sanitizer and validation prefix passes, its step is the
pass step at the context preCtx names. -/
theorem pre_next (c : Ctx) (h : prePasses c = true) :
    (runStages incomePreStages c).2 = Step.next (preCtx c) := by
  unfold prePasses at h
  unfold preCtx
  cases hs : (runStages incomePreStages c).2 with
  | next c2 => rfl
  | respond r => rw [hs] at h; simp [Step.isNext] at h

/-- The income POST run decomposes into the prefix and the business tail when
the prefix passes (trace and response components). -/
theorem runIncomeCreate_split (c : Ctx) (h : prePasses c = true) :
    (runIncomeCreate c).1 =
      (runStages incomePreStages c).1 ++
        (runRoute incomeTailStages createIncome (preCtx c)).1 ∧
    (runIncomeCreate c).2.1 =
      (runRoute incomeTailStages createIncome (preCtx c)).2.1 := by
  unfold runIncomeCreate
  have hpost : incomePostStages = incomePreStages ++ incomeTailStages := by
    simp [incomePostStages, incomeTailStages, List.append_assoc]
  rw [hpost]
  unfold runRoute
  rw [runStages_append_next incomePreStages incomeTailStages c (preCtx c) (pre_next c h)]
  have hpair : runStages incomeTailStages (preCtx c) =
      ((runStages incomeTailStages (preCtx c)).1,
       (runStages incomeTailStages (preCtx c)).2) := Prod.mk.eta.symm
  cases ht : (runStages incomeTailStages (preCtx c)).2 with
  | next c2 =>
    rw [ht] at hpair
    rw [hpair]
    dsimp only
    simp [List.append_assoc]
  | respond r =>
    rw [ht] at hpair
    rw [hpair]
    dsimp only
    simp

/-- The create-income handler never answers 409. -/
theorem createIncome_status (c : Ctx) :
    (createIncome c).1.status = 400 ∨ (createIncome c).1.status = 201 ∨
    (createIncome c).1.status = 500 := by
  unfold createIncome
  split
  · exact Or.inl rfl
  · split
    · exact Or.inr (Or.inl rfl)
    · exact Or.inr (Or.inr rfl)

/-- C1 amended: on a schema-invalid create-income request whose business
rules all pass, the response is the aggregated 400 validationErrors payload,
but it is produced only after every business stage (each of which may read
the store) has executed: the trace runs through all five business stages
before handleValidationErrors responds. -/
theorem C1_amended (c : Ctx)
    (hpre : prePasses c = true)
    (herr : (preCtx c).errors ≠ [])
    (h1 : validateActiveUser (preCtx c) = .next (preCtx c))
    (h2 : validateTransactionLimits (preCtx c) = .next (preCtx c))
    (h3 : validateFinancialConsistency (preCtx c) = .next (preCtx c))
    (h4 : validateUserPlanLimits (preCtx c) = .next (preCtx c))
    (h5 : validateDataIntegrity (preCtx c) = .next (preCtx c)) :
    (runIncomeCreate c).2.1 =
      ⟨400, "Datos de entrada inválidos", (preCtx c).errors⟩ ∧
    (runIncomeCreate c).1 =
      (runStages incomePreStages c).1 ++
        ["validateActiveUser", "validateTransactionLimits",
         "validateFinancialConsistency", "validateUserPlanLimits",
         "validateDataIntegrity", "handleValidationErrors"] := by
  have hie : (preCtx c).errors.isEmpty = false := by
    cases hE : (preCtx c).errors with
    | nil => exact absurd hE herr
    | cons a t => rfl
  have hb : runStages incomeTailStages (preCtx c) =
      (["validateActiveUser", "validateTransactionLimits",
        "validateFinancialConsistency", "validateUserPlanLimits",
        "validateDataIntegrity", "handleValidationErrors"],
       Step.respond ⟨400, "Datos de entrada inválidos", (preCtx c).errors⟩) := by
    simp only [incomeTailStages, incomeBusinessStages, List.cons_append,
      List.nil_append, runStages, h1, h2, h3, h4, h5, handleValidationErrors, hie]
    simp
  obtain ⟨htr, hresp⟩ := runIncomeCreate_split c hpre
  constructor
  · rw [hresp]; unfold runRoute; rw [hb]
  · rw [htr]; unfold runRoute; rw [hb]

/-- C1 amended witness at the concrete schema-invalid request. -/
theorem C1_amended_witness :
    (runIncomeCreate ctxBadDesc).2.1 =
      ⟨400, "Datos de entrada inválidos", (preCtx ctxBadDesc).errors⟩ ∧
    (runIncomeCreate ctxBadDesc).1 =
      (runStages incomePreStages ctxBadDesc).1 ++
        ["validateActiveUser", "validateTransactionLimits",
         "validateFinancialConsistency", "validateUserPlanLimits",
         "validateDataIntegrity", "handleValidationErrors"] :=
  C1_amended ctxBadDesc (by rfl) (by decide) (by rfl) (by rfl) (by rfl)
    (by rfl) (by rfl)

/-- C5: a create-income request of an inactive principal whose draft also
exceeds the daily volume limit is answered 403 AccountInactive, never 429:
validateActiveUser runs and terminates the pipeline before
validateTransactionLimits. -/
theorem C5_theorem (c : Ctx) (u : User)
    (hpre : prePasses c = true)
    (hu : findUser (preCtx c).store (preCtx c).userId = some u)
    (hact : u.isActive = false)
    (_hvol : 50 ≤ dailyIncomeCount (preCtx c).store (preCtx c).userId
      (fieldS (preCtx c).body "date")) :
    (runIncomeCreate c).2.1 = ⟨403, "Cuenta desactivada", []⟩ ∧
    (runIncomeCreate c).2.1.status ≠ 429 := by
  have hact' : validateActiveUser (preCtx c) =
      Step.respond ⟨403, "Cuenta desactivada", []⟩ := by
    unfold validateActiveUser
    rw [hu]
    simp [hact]
  have hb : runStages incomeTailStages (preCtx c) =
      (["validateActiveUser"], Step.respond ⟨403, "Cuenta desactivada", []⟩) := by
    simp only [incomeTailStages, incomeBusinessStages, List.cons_append,
      List.nil_append, runStages, hact']
  obtain ⟨htr, hresp⟩ := runIncomeCreate_split c hpre
  have hr : (runIncomeCreate c).2.1 = ⟨403, "Cuenta desactivada", []⟩ := by
    rw [hresp]; unfold runRoute; rw [hb]
  exact ⟨hr, by rw [hr]; decide⟩

/-- C5 witness: the deactivated principal with 50 incomes already recorded on
the day of the draft. -/
theorem C5_witness :
    (runIncomeCreate ctxInactiveFull).2.1 = ⟨403, "Cuenta desactivada", []⟩ ∧
    (runIncomeCreate ctxInactiveFull).2.1.status ≠ 429 :=
  C5_theorem ctxInactiveFull userInactive (by rfl) (by rfl) (by rfl) (by decide)

/-- C6: posting the same valid income draft twice in succession yields 201
then 409 DuplicateTransaction; and in general, once the earlier stages pass,
a create-income request is answered 409 exactly when an active transaction
with the same parsed amount, date and category already exists for the
principal in the income or the expense collection. -/
theorem C6_theorem :
    ((runIncomeCreate ctxDupFirst).2.1.status = 201 ∧
     (runIncomeCreate ctxDupSecond).2.1 = ⟨409, "Transacción duplicada", []⟩) ∧
    (∀ (c : Ctx) (q : QVal) (dms : Int) (cat : String),
      prePasses c = true →
      validateActiveUser (preCtx c) = .next (preCtx c) →
      validateTransactionLimits (preCtx c) = .next (preCtx c) →
      validateFinancialConsistency (preCtx c) = .next (preCtx c) →
      validateUserPlanLimits (preCtx c) = .next (preCtx c) →
      jsTruthy (getF (preCtx c).body "amount") = true →
      jsTruthy (getF (preCtx c).body "date") = true →
      jsTruthy (getF (preCtx c).body "category") = true →
      amountQOf (preCtx c).body = some q →
      dateMsOf (preCtx c).body = some dms →
      catOf (preCtx c).body = some cat →
      ((runIncomeCreate c).2.1.status = 409 ↔
        dupExists (preCtx c).store (preCtx c).userId q dms cat = true)) := by
  constructor
  · exact ⟨by rfl, by rfl⟩
  · intro c q dms cat hpre h1 h2 h3 h4 ht1 ht2 ht3 hq hdm hcat
    have hdi : validateDataIntegrity (preCtx c) =
        (if dupExists (preCtx c).store (preCtx c).userId q dms cat then
          Step.respond ⟨409, "Transacción duplicada", []⟩
        else Step.next (preCtx c)) := by
      unfold validateDataIntegrity
      rw [ht1, ht2, ht3, hq, hdm, hcat]
      rfl
    obtain ⟨htr, hresp⟩ := runIncomeCreate_split c hpre
    cases hd : dupExists (preCtx c).store (preCtx c).userId q dms cat with
    | true =>
      rw [hd] at hdi
      simp at hdi
      have hb : runStages incomeTailStages (preCtx c) =
          (["validateActiveUser", "validateTransactionLimits",
            "validateFinancialConsistency", "validateUserPlanLimits",
            "validateDataIntegrity"],
           Step.respond ⟨409, "Transacción duplicada", []⟩) := by
        simp only [incomeTailStages, incomeBusinessStages, List.cons_append,
          List.nil_append, runStages, h1, h2, h3, h4, hdi]
      have hs : (runIncomeCreate c).2.1.status = 409 := by
        rw [hresp]; unfold runRoute; rw [hb]
      simp [hs]
    | false =>
      rw [hd] at hdi
      simp at hdi
      have hne : (runIncomeCreate c).2.1.status ≠ 409 := by
        cases hie : (preCtx c).errors.isEmpty with
        | false =>
          have hb : runStages incomeTailStages (preCtx c) =
              (["validateActiveUser", "validateTransactionLimits",
                "validateFinancialConsistency", "validateUserPlanLimits",
                "validateDataIntegrity", "handleValidationErrors"],
               Step.respond ⟨400, "Datos de entrada inválidos", (preCtx c).errors⟩) := by
            simp only [incomeTailStages, incomeBusinessStages, List.cons_append,
              List.nil_append, runStages, h1, h2, h3, h4, hdi,
              handleValidationErrors, hie]
            simp
          rw [hresp]; unfold runRoute; rw [hb]
          dsimp only
          decide
        | true =>
          have hb : runStages incomeTailStages (preCtx c) =
              (["validateActiveUser", "validateTransactionLimits",
                "validateFinancialConsistency", "validateUserPlanLimits",
                "validateDataIntegrity", "handleValidationErrors"],
               Step.next (preCtx c)) := by
            simp only [incomeTailStages, incomeBusinessStages, List.cons_append,
              List.nil_append, runStages, h1, h2, h3, h4, hdi,
              handleValidationErrors, hie]
            simp
          rw [hresp]; unfold runRoute; rw [hb]
          dsimp only
          rcases createIncome_status (preCtx c) with h | h | h <;> simp [h]
      simp [hne]

/-- C6 witness: the characterization applied to the second request of the
duplicate scenario, whose store already holds the identical transaction. -/
theorem C6_witness : (runIncomeCreate ctxDupSecond).2.1.status = 409 :=
  (C6_theorem.2 ctxDupSecond ⟨100, 0⟩ tNow "salario" (by rfl) (by rfl) (by rfl)
    (by rfl) (by rfl) (by rfl) (by rfl) (by rfl) (by rfl) (by rfl)
    (by rfl)).mpr (by decide)

/-- C10: for every principal the plan-quota check applies the free-tier
limits, because userSchema defines no plan path: once the combined count of
active incomes and expenses reaches 100 the check answers 429, below that a
draft with more than 5 tags is answered 400, and otherwise the check passes
the request through unchanged. -/
theorem C10_theorem (c : Ctx) (u : User)
    (hu : findUser c.store c.userId = some u) :
    (100 ≤ activeTxnCount c.store c.userId →
      validateUserPlanLimits c = .respond ⟨429, "Límite de plan excedido", []⟩) ∧
    (activeTxnCount c.store c.userId < 100 →
      jsTruthy (getF c.body "tags") = true →
      jsLenGt (getF c.body "tags") 5 = true →
      validateUserPlanLimits c = .respond ⟨400, "Límite de etiquetas excedido", []⟩) ∧
    (activeTxnCount c.store c.userId < 100 →
      (jsTruthy (getF c.body "tags") = false ∨ jsLenGt (getF c.body "tags") 5 = false) →
      validateUserPlanLimits c = .next c) := by
  unfold validateUserPlanLimits
  rw [hu]
  dsimp only
  rw [show planLimits "free" = ((100 : Int), (5 : Int)) from rfl]
  dsimp only
  rw [show ((5 : Int)).toNat = 5 from rfl]
  refine ⟨?_, ?_, ?_⟩
  · intro hcnt
    have h1 : (100 : Int) ≤ (activeTxnCount c.store c.userId : Int) := by
      exact_mod_cast hcnt
    simp [h1]
  · intro hcnt hTr hLen
    have h2 : ¬ ((100 : Int) ≤ (activeTxnCount c.store c.userId : Int)) := by
      exact_mod_cast Nat.not_le.mpr hcnt
    simp [h2, hTr, hLen]
  · intro hcnt hO
    have h2 : ¬ ((100 : Int) ≤ (activeTxnCount c.store c.userId : Int)) := by
      exact_mod_cast Nat.not_le.mpr hcnt
    rcases hO with hO | hO <;> simp [h2, hO]

/-- C10 witness: the 429 case at 100 active transactions and the 400 case at
six tags. -/
theorem C10_witness :
    validateUserPlanLimits ctxHundred = .respond ⟨429, "Límite de plan excedido", []⟩ ∧
    validateUserPlanLimits ctxSixTags = .respond ⟨400, "Límite de etiquetas excedido", []⟩ :=
  ⟨(C10_theorem ctxHundred userActive (by rfl)).1 (by decide),
   (C10_theorem ctxSixTags userActive (by rfl)).2.1 (by decide) (by rfl) (by rfl)⟩

/-!
Character and string lemmas about the modelled platform functions, used for
the sanitizer idempotence and amount-rule theorems.
-/

/-- Characters are distinguished by their code points. -/
theorem char_ne_of_toNat_ne {a b : Char} (h : a.toNat ≠ b.toNat) : a ≠ b :=
  fun he => h (by rw [he])

/-- Packing a small code point and reading it back is the identity. -/
theorem char_toNat_ofNat_valid {n : Nat} (h : n < 55296) : (Char.ofNat n).toNat = n := by
  unfold Char.ofNat
  rw [dif_pos (Or.inl h : n.isValidChar)]
  rfl

/-- Lower-casing an uppercase ASCII letter adds 32 to the code point. -/
theorem jsLowerChar_toNat_of_upper {c : Char} (h1 : 65 ≤ c.toNat) (h2 : c.toNat ≤ 90) :
    (jsLowerChar c).toNat = c.toNat + 32 := by
  unfold jsLowerChar
  rw [if_pos ⟨h1, h2⟩]
  exact char_toNat_ofNat_valid (by omega)

/-- Lower-casing leaves a character outside the uppercase range unchanged. -/
theorem jsLowerChar_of_not_upper {c : Char} (h : ¬(65 ≤ c.toNat ∧ c.toNat ≤ 90)) :
    jsLowerChar c = c := by
  unfold jsLowerChar
  exact if_neg h

/-- Lower-casing a character twice equals lower-casing it once. -/
theorem jsLowerChar_idem (c : Char) : jsLowerChar (jsLowerChar c) = jsLowerChar c := by
  by_cases h : 65 ≤ c.toNat ∧ c.toNat ≤ 90
  · have hd := jsLowerChar_toNat_of_upper h.1 h.2
    exact jsLowerChar_of_not_upper (by omega)
  · rw [jsLowerChar_of_not_upper h, jsLowerChar_of_not_upper h]

/-- A character whose code point is none of the whitespace code points is not
JavaScript whitespace. -/
theorem isJsSpace_false_of_toNat {x : Char}
    (h : ¬(x.toNat = 32 ∨ x.toNat = 9 ∨ x.toNat = 10 ∨ x.toNat = 13 ∨
           x.toNat = 11 ∨ x.toNat = 12)) : isJsSpace x = false := by
  push_neg at h
  obtain ⟨h32, h9, h10, h13, h11, h12⟩ := h
  simp only [isJsSpace, Bool.or_eq_false_iff, beq_eq_false_iff_ne]
  refine ⟨⟨⟨⟨⟨?_, ?_⟩, ?_⟩, ?_⟩, ?_⟩, ?_⟩
  · exact char_ne_of_toNat_ne (by rw [show (' ').toNat = 32 from rfl]; exact h32)
  · exact char_ne_of_toNat_ne (by rw [show ('\t').toNat = 9 from rfl]; exact h9)
  · exact char_ne_of_toNat_ne (by rw [show ('\n').toNat = 10 from rfl]; exact h10)
  · exact char_ne_of_toNat_ne (by rw [show ('\r').toNat = 13 from rfl]; exact h13)
  · exact h11
  · exact h12

/-- Lower-casing preserves whether a character is JavaScript whitespace. -/
theorem isJsSpace_lower (c : Char) : isJsSpace (jsLowerChar c) = isJsSpace c := by
  by_cases h : 65 ≤ c.toNat ∧ c.toNat ≤ 90
  · have hd := jsLowerChar_toNat_of_upper h.1 h.2
    rw [isJsSpace_false_of_toNat (by omega), isJsSpace_false_of_toNat (by omega)]
  · rw [jsLowerChar_of_not_upper h]

/-- The list-level trim in terms of dropWhile and rdropWhile. -/
theorem jsTrimList_def (l : List Char) :
    jsTrimList l = List.rdropWhile isJsSpace (l.dropWhile isJsSpace) := rfl

/-- Dropping leading whitespace from an already trimmed list changes
nothing. -/
theorem dropWhile_rdropWhile_dropWhile (u : List Char) :
    List.dropWhile isJsSpace
        (List.rdropWhile isJsSpace (List.dropWhile isJsSpace u)) =
      List.rdropWhile isJsSpace (List.dropWhile isJsSpace u) := by
  cases ht : List.rdropWhile isJsSpace (List.dropWhile isJsSpace u) with
  | nil => simp
  | cons a ts =>
    have hpre : a :: ts <+: List.dropWhile isJsSpace u := by
      rw [← ht]; exact List.rdropWhile_prefix _ _
    have hw : List.dropWhile isJsSpace u ≠ [] := by
      intro h0
      rw [h0] at hpre
      simp at hpre
    have hhead : (a :: ts).head (by simp) =
        (List.dropWhile isJsSpace u).head hw := List.IsPrefix.head hpre (by simp)
    have hfalse : isJsSpace a = false := by
      have := List.head_dropWhile_not isJsSpace u hw
      rw [← hhead] at this
      simpa using this
    rw [List.dropWhile_cons, hfalse]
    simp

/-- Trimming is idempotent on character lists. -/
theorem jsTrimList_idem (l : List Char) : jsTrimList (jsTrimList l) = jsTrimList l := by
  rw [jsTrimList_def, jsTrimList_def, dropWhile_rdropWhile_dropWhile,
    List.rdropWhile_idempotent]

/-- Trimming is idempotent. -/
theorem jsTrim_idem (s : String) : jsTrim (jsTrim s) = jsTrim s := by
  show String.mk (jsTrimList (jsTrimList s.data)) = String.mk (jsTrimList s.data)
  exact congrArg _ (jsTrimList_idem s.data)

/-- Every character of the trimmed list comes from the original list. -/
theorem mem_jsTrimList {l : List Char} {c : Char} (h : c ∈ jsTrimList l) : c ∈ l := by
  unfold jsTrimList at h
  rw [List.mem_reverse] at h
  have h2 := List.Sublist.mem h (List.dropWhile_sublist _)
  rw [List.mem_reverse] at h2
  exact List.Sublist.mem h2 (List.dropWhile_sublist _)

/-- Trimming preserves cleanliness. -/
theorem cleanStr_jsTrim {s : String} (h : cleanStr s = true) :
    cleanStr (jsTrim s) = true := by
  unfold cleanStr at h ⊢
  rw [List.all_eq_true] at h ⊢
  intro x hx
  exact h x (mem_jsTrimList hx)

/-- Escaping a clean string changes nothing. -/
theorem jsEscape_of_clean {s : String} (h : cleanStr s = true) : jsEscape s = s := by
  unfold cleanStr at h
  rw [List.all_eq_true] at h
  show String.mk ((s.data.map escMap).flatten) = s
  have : ∀ (l : List Char), (∀ c ∈ l, cleanChar c = true) →
      (l.map escMap).flatten = l := by
    intro l hl
    induction l with
    | nil => rfl
    | cons c t ih =>
      have hc : escMap c = [c] := by
        have := hl c (by simp)
        unfold cleanChar at this
        rw [Bool.and_eq_true] at this
        exact eq_of_beq this.1
      simp only [List.map_cons, List.flatten_cons, hc]
      rw [ih (fun x hx => hl x (by simp [hx]))]
      rfl
  rw [this s.data h]

/-- Stripping control characters from a clean string changes nothing. -/
theorem jsStripLow_of_clean {s : String} (h : cleanStr s = true) :
    jsStripLowKeepNl s = s := by
  unfold cleanStr at h
  rw [List.all_eq_true] at h
  show String.mk (s.data.filter _) = s
  rw [List.filter_eq_self.mpr]
  · intro a ha
    have := h a ha
    unfold cleanChar at this
    rw [Bool.and_eq_true] at this
    exact this.2
  -- no goals remain

/-- One description or notes chain pass on an already clean value reduces to
a single trim. -/
theorem textRound_clean {s : String} (h : cleanStr s = true) :
    jsStripLowKeepNl (jsEscape (jsTrim (jsTrim s))) = jsTrim s := by
  rw [jsTrim_idem, jsEscape_of_clean (cleanStr_jsTrim h),
    jsStripLow_of_clean (cleanStr_jsTrim h)]

/-- Lower-casing is idempotent. -/
theorem jsLower_idem (s : String) : jsLower (jsLower s) = jsLower s := by
  show String.mk ((s.data.map jsLowerChar).map jsLowerChar) =
    String.mk (s.data.map jsLowerChar)
  rw [List.map_map]
  exact congrArg _ (List.map_congr_left (fun a _ => jsLowerChar_idem a))

/-- Trimming commutes with lower-casing. -/
theorem jsTrim_jsLower (s : String) : jsTrim (jsLower s) = jsLower (jsTrim s) := by
  show String.mk (jsTrimList (s.data.map jsLowerChar)) =
    String.mk ((jsTrimList s.data).map jsLowerChar)
  have hcomp : (isJsSpace ∘ jsLowerChar) = isJsSpace := funext isJsSpace_lower
  unfold jsTrimList
  rw [List.dropWhile_map, hcomp, ← List.map_reverse, List.dropWhile_map, hcomp,
    ← List.map_reverse]

/-- The tag element transform stabilises after one application. -/
theorem tagStr_round (s : String) :
    jsLower (jsTrim (jsLower (jsTrim s))) = jsLower (jsTrim s) := by
  rw [jsTrim_jsLower, jsTrim_idem, jsLower_idem]

/-- The sanitizeTags element map is idempotent. -/
theorem tagMap_idem (t : JVal) : tagMap (tagMap t) = tagMap t := by
  cases t with
  | jstr s =>
    show JVal.jstr (jsLower (jsTrim (jsLower (jsTrim s)))) =
      JVal.jstr (jsLower (jsTrim s))
    rw [tagStr_round]
  | jnum d => rfl
  | jbool b => rfl
  | jarr l => rfl
  | jnull => rfl

/-- One sanitizeTags pass is idempotent. -/
theorem tagsRound_idem (l : List JVal) : tagsRound (tagsRound l) = tagsRound l := by
  unfold tagsRound
  have h1 : (List.filter tagKept (l.map tagMap)).map tagMap =
      List.filter tagKept (l.map tagMap) := by
    have hfix : ∀ e ∈ List.filter tagKept (l.map tagMap), tagMap e = e := by
      intro e he
      obtain ⟨hm, _⟩ := List.mem_filter.mp he
      obtain ⟨t, _, rfl⟩ := List.mem_map.mp hm
      exact tagMap_idem t
    calc (List.filter tagKept (l.map tagMap)).map tagMap
        = (List.filter tagKept (l.map tagMap)).map id := List.map_congr_left hfix
      _ = List.filter tagKept (l.map tagMap) := List.map_id _
  rw [h1]
  exact List.filter_eq_self.mpr (fun a ha => (List.mem_filter.mp ha).2)

/-!
Evaluation of the sanitizer chain on a structured draft, and claim C8.
-/

/-- sanitizeInput on a structured draft trims every string field. -/
theorem sanitizeInput_draft (ds cat dt pm nt : String) (a : DecNum)
    (tags : List JVal) (r : Bool) (st : Store) :
    sanitizeInput (mkCtx (draftBody ds (.jnum a) cat dt pm nt tags r) st) =
      Step.next (mkCtx (draftBody (jsTrim ds) (.jnum a) (jsTrim cat) (jsTrim dt)
        (jsTrim pm) (jsTrim nt) tags r) st) := by rfl

/-- The description chain on a structured draft. -/
theorem sanitizeDescription_draft (ds cat dt pm nt : String) (a : DecNum)
    (tags : List JVal) (r : Bool) (st : Store) :
    sanitizeDescription (mkCtx (draftBody ds (.jnum a) cat dt pm nt tags r) st) =
      mkCtx (draftBody (jsStripLowKeepNl (jsEscape (jsTrim ds))) (.jnum a) cat dt
        pm nt tags r) st := by rfl

/-- The notes chain on a structured draft. -/
theorem sanitizeNotes_draft (ds cat dt pm nt : String) (a : DecNum)
    (tags : List JVal) (r : Bool) (st : Store) :
    sanitizeNotes (mkCtx (draftBody ds (.jnum a) cat dt pm nt tags r) st) =
      mkCtx (draftBody ds (.jnum a) cat dt pm
        (jsStripLowKeepNl (jsEscape (jsTrim nt))) tags r) st := by rfl

/-- The tags chain on a structured draft. -/
theorem sanitizeTags_draft (ds cat dt pm nt : String) (a : DecNum)
    (tags : List JVal) (r : Bool) (st : Store) :
    sanitizeTags (mkCtx (draftBody ds (.jnum a) cat dt pm nt tags r) st) =
      mkCtx (draftBody ds (.jnum a) cat dt pm nt (tagsRound tags) r) st := by rfl

/-- The numeric chain leaves a numeric amount unchanged. -/
theorem sanitizeNumeric_draft (ds cat dt pm nt : String) (a : DecNum)
    (tags : List JVal) (r : Bool) (st : Store) :
    sanitizeNumericFieldsAmount (mkCtx (draftBody ds (.jnum a) cat dt pm nt tags r) st) =
      mkCtx (draftBody ds (.jnum a) cat dt pm nt tags r) st := by rfl

/-- The boolean chain rewrites a boolean isRecurring to itself. -/
theorem sanitizeBoolean_draft (ds cat dt pm nt : String) (a : DecNum)
    (tags : List JVal) (r : Bool) (st : Store) :
    sanitizeBooleanFieldsIsRecurring
        (mkCtx (draftBody ds (.jnum a) cat dt pm nt tags r) st) =
      mkCtx (draftBody ds (.jnum a) cat dt pm nt tags r) st := by rfl

/-- The date chain leaves a canonical date value unchanged. -/
theorem sanitizeDate_draft (ds cat dt pm nt : String) (a : DecNum)
    (tags : List JVal) (r : Bool) (st : Store) (m : Int)
    (hp : jsParseDateMs dt = some m) (hi : isoOfMs m = dt) :
    sanitizeDate (mkCtx (draftBody ds (.jnum a) cat dt pm nt tags r) st) =
      mkCtx (draftBody ds (.jnum a) cat dt pm nt tags r) st := by
  unfold sanitizeDate
  rw [show getF (mkCtx (draftBody ds (.jnum a) cat dt pm nt tags r) st).body "date" =
    some (.jstr dt) from rfl]
  have hne : dt.isEmpty = false := by
    cases hE : dt.isEmpty with
    | false => rfl
    | true =>
      exfalso
      have hdt : dt = "" := (String.isEmpty_iff dt).mp hE
      rw [hdt] at hp
      rw [show jsParseDateMs "" = none from rfl] at hp
      exact Option.noConfusion hp
  dsimp only
  rw [hne, if_neg Bool.false_ne_true, hp]
  dsimp only
  rw [hi]
  rfl

/-- One full sanitizer pass over a structured draft with a canonical date. -/
theorem sanitizerChain_draft (ds cat dt pm nt : String) (a : DecNum)
    (tags : List JVal) (r : Bool) (st : Store) (m : Int)
    (hT : jsTrim dt = dt) (hp : jsParseDateMs dt = some m) (hi : isoOfMs m = dt) :
    sanitizerChain (mkCtx (draftBody ds (.jnum a) cat dt pm nt tags r) st) =
      some (mkCtx (draftBody (jsStripLowKeepNl (jsEscape (jsTrim (jsTrim ds))))
        (.jnum a) (jsTrim cat) dt (jsTrim pm)
        (jsStripLowKeepNl (jsEscape (jsTrim (jsTrim nt)))) (tagsRound tags) r) st) := by
  unfold sanitizerChain
  rw [sanitizeInput_draft, hT]
  dsimp only
  rw [sanitizeDescription_draft, sanitizeNotes_draft, sanitizeTags_draft,
    sanitizeDate_draft _ _ _ _ _ _ _ _ _ m hp hi, sanitizeNumeric_draft,
    sanitizeBoolean_draft]

/-- C8 counterexample: sanitizing a payload whose description is a single
markup character once yields an escaped entity, sanitizing the result again
escapes the ampersand of that entity, so the sanitizer is not idempotent. -/
theorem C8_counterexample :
    descValOf (sanitizerChain ctxEscape) = some "&lt;" ∧
    descValOf ((sanitizerChain ctxEscape).bind sanitizerChain) = some "&amp;lt;" ∧
    (sanitizerChain ctxEscape).bind sanitizerChain ≠ sanitizerChain ctxEscape := by
  refine ⟨by rfl, by rfl, ?_⟩
  intro h
  have h2 : descValOf ((sanitizerChain ctxEscape).bind sanitizerChain) =
      descValOf (sanitizerChain ctxEscape) := congrArg _ h
  rw [show descValOf ((sanitizerChain ctxEscape).bind sanitizerChain) =
      some "&amp;lt;" from rfl,
    show descValOf (sanitizerChain ctxEscape) = some "&lt;" from rfl] at h2
  exact absurd h2 (by decide)

/-- C8 amended: the sanitizer is idempotent on drafts whose description and
notes contain no escapable or control characters and whose date is already in
the canonical ISO form; re-running it on its own output then returns the
output unchanged. In general the markup escape breaks idempotence, which the
counterexample records. -/
theorem C8_amended (ds cat dt pm nt : String) (a : DecNum) (tags : List JVal)
    (r : Bool) (st : Store) (m : Int)
    (hds : cleanStr ds = true) (hnt : cleanStr nt = true)
    (hT : jsTrim dt = dt) (hp : jsParseDateMs dt = some m) (hi : isoOfMs m = dt)
    (c1 : Ctx)
    (h : sanitizerChain (mkCtx (draftBody ds (.jnum a) cat dt pm nt tags r) st) =
      some c1) :
    sanitizerChain c1 = some c1 := by
  rw [sanitizerChain_draft ds cat dt pm nt a tags r st m hT hp hi] at h
  have hc1 := Option.some.inj h
  subst hc1
  rw [textRound_clean hds, textRound_clean hnt]
  rw [sanitizerChain_draft _ _ _ _ _ _ _ _ _ m hT hp hi]
  rw [textRound_clean (cleanStr_jsTrim hds), textRound_clean (cleanStr_jsTrim hnt)]
  rw [jsTrim_idem ds, jsTrim_idem nt, jsTrim_idem cat, jsTrim_idem pm,
    tagsRound_idem]

/-- C8 amended witness at a concrete clean draft. -/
theorem C8_amended_witness :
    sanitizerChain ((sanitizerChain ctxDraftClean).getD ctxDraftClean) =
      some ((sanitizerChain ctxDraftClean).getD ctxDraftClean) :=
  C8_amended "Salario mensual" "salario" "2026-10-10T00:00:00.000Z" "efectivo"
    "nota breve" ⟨false, 100, []⟩ [JVal.jstr "Trabajo", JVal.jstr ""] true storeA
    tNow (by decide) (by decide) (by rfl) (by rfl) (by rfl)
    ((sanitizerChain ctxDraftClean).getD ctxDraftClean) (by rfl)

/-!
Decimal-printing lemmas for the amount rule, and claim C7.
-/

/-- Digits consumed from a character list are below ten. -/
theorem takeDigits_lt (l : List Char) : ∀ x ∈ (takeDigits l).1, x < 10 := by
  induction l with
  | nil => intro x hx; simp [takeDigits] at hx
  | cons c t ih =>
    intro x hx
    unfold takeDigits at hx
    by_cases hc : isDigitCh c = true
    · rw [if_pos hc] at hx
      simp only [List.mem_cons] at hx
      rcases hx with hx | hx
      · subst hx
        unfold isDigitCh at hc
        rw [Bool.and_eq_true, decide_eq_true_eq, decide_eq_true_eq] at hc
        unfold digitVal
        omega
      · exact ih x hx
    · rw [if_neg hc] at hx
      simp at hx

/-- Stripping trailing zeros keeps only original digits. -/
theorem mem_stripTrailingZeros {ds : List Nat} {x : Nat}
    (h : x ∈ stripTrailingZeros ds) : x ∈ ds := by
  unfold stripTrailingZeros at h
  rw [List.mem_reverse] at h
  have h2 := List.Sublist.mem h (List.dropWhile_sublist _)
  rw [List.mem_reverse] at h2
  exact h2

/-- Fractional digits produced by parseFloat are below ten. -/
theorem jsParseFloat_frac_lt {s : String} {d : DecNum}
    (h : jsParseFloat s = some d) : ∀ x ∈ d.frac, x < 10 := by
  unfold jsParseFloat at h
  split at h <;>
    (dsimp only at h
     split at h <;> split_ifs at h <;>
       first
         | exact Option.noConfusion h
         | (have hd := Option.some.inj h
            subst hd
            intro x hx
            first
              | exact takeDigits_lt _ x (mem_stripTrailingZeros hx)
              | simp at hx))

/-- The digits returned by the core digit printer are below ten. -/
theorem natDigitsCore_lt (f : Nat) : ∀ (n : Nat), ∀ x ∈ natDigitsCore f n, x < 10 := by
  induction f with
  | zero => intro n x hx; simp [natDigitsCore] at hx
  | succ f ih =>
    intro n x hx
    unfold natDigitsCore at hx
    split_ifs at hx with hn
    · rcases List.mem_cons.mp hx with hx | hx
      · subst hx; exact hn
      · simp at hx
    · rcases List.mem_append.mp hx with hx | hx
      · exact ih (n / 10) x hx
      · rcases List.mem_cons.mp hx with hx | hx
        · subst hx; exact Nat.mod_lt _ (by norm_num)
        · simp at hx

/-- The digits of a natural number are below ten. -/
theorem natDigits_lt (n : Nat) : ∀ x ∈ natDigits n, x < 10 :=
  natDigitsCore_lt (n + 1) n

/-- Printed digit lists contain no dot. -/
theorem digitsStr_ne_dot {ds : List Nat} (h : ∀ x ∈ ds, x < 10) :
    ∀ c ∈ (digitsStr ds).data, c ≠ '.' := by
  intro c hc
  unfold digitsStr at hc
  obtain ⟨x, hx, rfl⟩ := List.mem_map.mp hc
  have hlt := h x hx
  refine char_ne_of_toNat_ne ?_
  rw [char_toNat_ofNat_valid (by omega), show ('.').toNat = 46 from rfl]
  omega

/-- Splitting at the dot skips a dot-free prefix. -/
theorem afterFirstDot_append {l1 : List Char} (h : ∀ c ∈ l1, c ≠ '.')
    (l2 : List Char) : afterFirstDot (l1 ++ l2) = afterFirstDot l2 := by
  induction l1 with
  | nil => rfl
  | cons c t ih =>
    rw [List.cons_append]
    rw [show afterFirstDot (c :: (t ++ l2)) =
      (if c == '.' then some (t ++ l2) else afterFirstDot (t ++ l2)) from rfl]
    rw [show (c == '.') = false from beq_eq_false_iff_ne.mpr (h c (by simp)),
      if_neg Bool.false_ne_true]
    exact ih (fun x hx => h x (by simp [hx]))

/-- A dot-free list has no part after the dot. -/
theorem afterFirstDot_eq_none {l : List Char} (h : ∀ c ∈ l, c ≠ '.') :
    afterFirstDot l = none := by
  induction l with
  | nil => rfl
  | cons c t ih =>
    unfold afterFirstDot
    rw [show (c == '.') = false from beq_eq_false_iff_ne.mpr (h c (by simp)),
      if_neg Bool.false_ne_true]
    exact ih (fun x hx => h x (by simp [hx]))

/-- A dot-free list is its own prefix up to the dot. -/
theorem upToDot_eq_self {l : List Char} (h : ∀ c ∈ l, c ≠ '.') : upToDot l = l := by
  induction l with
  | nil => rfl
  | cons c t ih =>
    unfold upToDot
    rw [show (c == '.') = false from beq_eq_false_iff_ne.mpr (h c (by simp)),
      if_neg Bool.false_ne_true]
    rw [ih (fun x hx => h x (by simp [hx]))]

/-- The second dot-component of a printed decimal is exactly its fractional
digit string. -/
theorem splitDot_decStr (d : DecNum) (hd : ∀ x ∈ d.frac, x < 10) :
    splitDotSecond (decStr d) =
      (if d.frac.isEmpty then none else some (digitsStr d.frac)) := by
  have hsign : ∀ c ∈ (if d.neg then "-" else "").data, c ≠ '.' := by
    intro c hc
    cases hn : d.neg with
    | false =>
      rw [hn, if_neg Bool.false_ne_true,
        show ("" : String).data = [] from rfl] at hc
      simp at hc
    | true =>
      rw [hn, if_pos rfl, show ("-" : String).data = ['-'] from rfl] at hc
      rcases List.mem_cons.mp hc with hc | hc
      · subst hc; decide
      · simp at hc
  unfold splitDotSecond decStr
  cases hf : d.frac with
  | nil =>
    rw [show ([] : List Nat).isEmpty = true from rfl, if_pos rfl]
    rw [String.data_append, String.data_append,
      show ("" : String).data = [] from rfl, List.append_nil]
    rw [afterFirstDot_append hsign,
      afterFirstDot_eq_none (digitsStr_ne_dot (natDigits_lt _))]
    rfl
  | cons f fs =>
    rw [show (f :: fs).isEmpty = false from rfl, if_neg Bool.false_ne_true]
    rw [String.data_append, String.data_append, String.data_append,
      show ("." : String).data = ['.'] from rfl]
    rw [List.append_assoc, afterFirstDot_append hsign,
      afterFirstDot_append (digitsStr_ne_dot (natDigits_lt _))]
    rw [show afterFirstDot (['.'] ++ (digitsStr (f :: fs)).data) =
      some ((digitsStr (f :: fs)).data) from rfl]
    have hdig : ∀ x ∈ (f :: fs), x < 10 := by rw [← hf]; exact hd
    show some (String.mk (upToDot (digitsStr (f :: fs)).data)) = _
    rw [upToDot_eq_self (digitsStr_ne_dot hdig), if_neg Bool.false_ne_true]

/-- C7 amended: for an amount posted as a string that parseFloat accepts, the
schema amount rule passes exactly when the parsed value lies in the range
0.01 to 999,999,999.99 and the parsed value has at most two fractional digits
in its shortest printed form: the digit count runs on toString of the number
the sanitizer stored, not on the decimal-string form of the input. -/
theorem C7_amended {s : String} {d : DecNum} (h : jsParseFloat s = some d) :
    (transactionValidationsAmount (sanitizeNumericFieldsAmount (mkAmountCtx s))).errors = []
      ↔ (amountInRange d.toQ = true ∧ d.frac.length ≤ 2) := by
  have hd := jsParseFloat_frac_lt h
  have hs : sanitizeNumericFieldsAmount (mkAmountCtx s) =
      mkCtx [("amount", JVal.jnum d)] storeA := by
    unfold sanitizeNumericFieldsAmount
    rw [show getF (mkAmountCtx s).body "amount" = some (JVal.jstr s) from rfl]
    dsimp only
    rw [h]
    rfl
  rw [hs]
  unfold transactionValidationsAmount
  dsimp only [mkCtx]
  rw [show getF [("amount", JVal.jnum d)] "amount" = some (JVal.jnum d) from rfl]
  dsimp only
  rw [show jsDotToString (JVal.jnum d) = decStr d from rfl, splitDot_decStr d hd]
  cases hf : d.frac with
  | nil =>
    cases hr : amountInRange d.toQ <;> simp [hr, addErr]
  | cons f fs =>
    have hne : (digitsStr (f :: fs)).isEmpty = false := by
      refine Bool.eq_false_iff.mpr (fun hcon => ?_)
      have h2 := (String.isEmpty_iff _).mp hcon
      have h3 := congrArg String.data h2
      simp [digitsStr] at h3
    have hlen : (digitsStr (f :: fs)).length = fs.length + 1 := by
      simp [digitsStr, String.length]
    by_cases hl : 2 < fs.length + 1 <;> cases hr : amountInRange d.toQ <;>
      (simp [hr, hne, hlen, hl, addErr]; try omega)

/-- C7 amended witness: 10.125 parses with three fractional digits, so the
amended characterisation applies and the amount rule records an error. -/
theorem C7_amended_witness :
    jsParseFloat "10.125" = some ⟨false, 10, [1, 2, 5]⟩ ∧
    ((transactionValidationsAmount (sanitizeNumericFieldsAmount
        (mkAmountCtx "10.125"))).errors = []
      ↔ (amountInRange (DecNum.toQ ⟨false, 10, [1, 2, 5]⟩) = true ∧
         (DecNum.frac ⟨false, 10, [1, 2, 5]⟩).length ≤ 2)) :=
  ⟨by rfl, C7_amended (by rfl)⟩

end FinApp
